import Mathlib

/-!
# T55xx low-frequency tag commands: a verification development

Shallow embedding of `client/cmdlft55xx.c`.

* A bit buffer (`uint8_t *bits`, the global `DemodBuffer`) is a function
  `Nat → Nat` giving the byte stored at every index; the global
  `DemodBufferLen` is a separate natural number, exactly as in the C code
  where the array is larger than the demodulated length.
* `uint8_t` and `uint32_t` values are natural numbers with an explicit
  `% 256` or `% 2 ^ 32` wherever the C code converts or can overflow.
* A C function returning `bool` and writing through output pointers only
  when it returns `TRUE` is an `Option` of the written values.
-/

namespace T55xx

/-! ## Definitions -/

/-- Loop of `PackBits`: `cnt` is `j + 1`, so the body runs for
`j = cnt - 1, ..., 0` while `i` counts upwards; `tmp |= bits[i] << j` on a
`uint32_t` accumulator. An entry `bits i` is a byte of the array. -/
def packLoop (bits : Nat → Nat) : Nat → Nat → Nat → Nat
  | 0, _, tmp => tmp
  | j + 1, i, tmp => packLoop bits j (i + 1) ((tmp ||| (bits i <<< j)) % 2 ^ 32)

/-- The function `PackBits(start, len, bits)` of the source. -/
def PackBits (start len : Nat) (bits : Nat → Nat) : Nat :=
  if len > 32 then 0 else packLoop bits len start 0

/-- Binary digits of `v`, most significant first, written into positions
`start .. start + len - 1` of a buffer; every other position is kept. -/
def writeBits (v start len : Nat) (bits : Nat → Nat) : Nat → Nat :=
  fun i => if start ≤ i ∧ i < start + len then (v >>> (len - 1 - (i - start))) % 2 else bits i

/-- Modelled from the spec: the enumeration of modulation kinds `DEMOD_*`
(FSK, FSK1, FSK1a, FSK2, FSK2a, ASK, PSK1, PSK2, PSK3, NRZ, Biphase, BiphaseA)
is declared in `cmdlft55xx.h`, which is not among the sources. The numeric value of
each constant is a parameter of the development. -/
structure DemodCodes where
  DEMOD_FSK : Nat
  DEMOD_FSK1 : Nat
  DEMOD_FSK1a : Nat
  DEMOD_FSK2 : Nat
  DEMOD_FSK2a : Nat
  DEMOD_ASK : Nat
  DEMOD_PSK1 : Nat
  DEMOD_PSK2 : Nat
  DEMOD_PSK3 : Nat
  DEMOD_NRZ : Nat
  DEMOD_BI : Nat
  DEMOD_BIa : Nat

/-- Modelled from the spec: values for the constants of `cmdlft55xx.h` (not among the
sources). They are the on-tag modulation codes that `GetModulationStr` lists
(0 direct/NRZ, 1 to 3 PSK1 to PSK3, 4 to 7 the FSK family, 8 Manchester/ASK,
16 biphase, 0x18 biphase a); the generic `DEMOD_FSK` is a client-only value. -/
def codes : DemodCodes where
  DEMOD_FSK := 0xF0
  DEMOD_FSK1 := 0x04
  DEMOD_FSK1a := 0x05
  DEMOD_FSK2 := 0x06
  DEMOD_FSK2a := 0x07
  DEMOD_ASK := 0x08
  DEMOD_PSK1 := 0x01
  DEMOD_PSK2 := 0x02
  DEMOD_PSK3 := 0x03
  DEMOD_NRZ := 0x00
  DEMOD_BI := 0x10
  DEMOD_BIa := 0x18

/-- The function `testModulation(mode, modread)`: the `switch` on `mode` is the chain of
its case labels in source order. -/
def testModulation (c : DemodCodes) (mode modread : Nat) : Bool :=
  if mode = c.DEMOD_FSK then decide (c.DEMOD_FSK1 ≤ modread ∧ modread ≤ c.DEMOD_FSK2a)
  else if mode = c.DEMOD_ASK then decide (modread = c.DEMOD_ASK)
  else if mode = c.DEMOD_PSK1 then decide (modread = c.DEMOD_PSK1)
  else if mode = c.DEMOD_PSK2 then decide (modread = c.DEMOD_PSK2)
  else if mode = c.DEMOD_PSK3 then decide (modread = c.DEMOD_PSK3)
  else if mode = c.DEMOD_NRZ then decide (modread = c.DEMOD_NRZ)
  else if mode = c.DEMOD_BI then decide (modread = c.DEMOD_BI)
  else if mode = c.DEMOD_BIa then decide (modread = c.DEMOD_BIa)
  else false

/-- The function `testQ5Modulation(mode, modread)`. -/
def testQ5Modulation (c : DemodCodes) (mode modread : Nat) : Bool :=
  if mode = c.DEMOD_FSK then decide (4 ≤ modread ∧ modread ≤ 5)
  else if mode = c.DEMOD_ASK then decide (modread = 0)
  else if mode = c.DEMOD_PSK1 then decide (modread = 1)
  else if mode = c.DEMOD_PSK2 then decide (modread = 2)
  else if mode = c.DEMOD_PSK3 then decide (modread = 3)
  else if mode = c.DEMOD_NRZ then decide (modread = 7)
  else if mode = c.DEMOD_BI then decide (modread = 6)
  else false

/-- The table `expected` of `testBitRate` (also `bitRate` of `DecodeT55xxBlock` and the
first eight entries of `rates` in `CmdT55xxSetConfig`). -/
def expected : List Nat := [8, 16, 32, 40, 50, 64, 100, 128]

/-- The function `testBitRate(readRate, clk)`. The source indexes the 8-entry table
without a check; `test` only calls it with `readRate <= 7`, and an index outside the
table (never reached from `test`) is modelled as a mismatch. -/
def testBitRate (readRate clk : Nat) : Bool :=
  match expected[readRate]? with
  | some r => r == clk
  | none => false

/-- A `for (idx = start; ...; idx++)` loop of `n` iterations whose body either
`continue`s (`none`) or returns `TRUE` with a value: the first index at which the body
succeeds, with that value. -/
def scanFrom (body : Nat → Option Nat) : Nat → Nat → Option (Nat × Nat)
  | 0, _ => none
  | n + 1, idx =>
    match body idx with
    | some r => some (idx, r)
    | none => scanFrom body n (idx + 1)

/-- Body of the loop of `testQ5` at offset `idx`: `none` is `continue`, `some bitRate`
is the accepted offset with the value stored in `*fndBitRate`. -/
def testQ5At (c : DemodCodes) (mode clk : Nat) (DemodBuffer : Nat → Nat) (idx : Nat) :
    Option Nat :=
  -- si = idx
  if PackBits idx 28 DemodBuffer = 0 then none else
  let safer := PackBits idx 4 DemodBuffer % 256          -- si += 4
  let resv := PackBits (idx + 4) 8 DemodBuffer % 256     -- si += 8
  if safer ≠ 6 then none else
  if resv > 0 then none else
  -- si += 1+1
  let bitRate := (PackBits (idx + 14) 5 DemodBuffer * 2 + 2) % 2 ^ 32   -- si += 5
  if bitRate > 128 ∨ bitRate < 8 then none else
  -- si += 1+1+2+1
  let modread := PackBits (idx + 24) 3 DemodBuffer % 256  -- si += 3
  let maxBlk := PackBits (idx + 27) 3 DemodBuffer % 256   -- si += 3
  if maxBlk = 0 then none else
  if testQ5Modulation c mode modread = false then none else
  if bitRate ≠ clk then none else
  some bitRate

/-- The function `testQ5(mode, &offset, &fndBitRate, clk)`: `some (offset, fndBitRate)`
when it returns `TRUE`. -/
def testQ5 (c : DemodCodes) (mode clk : Nat) (DemodBuffer : Nat → Nat) (DemodBufferLen : Nat) :
    Option (Nat × Nat) :=
  if DemodBufferLen < 64 then none
  else scanFrom (testQ5At c mode clk DemodBuffer) 36 28

/-- Body of the T55x7 loop of `test` at offset `idx`: `none` is `continue`,
`some bitRate` is the accepted offset with the value stored in `*fndBitRate`. -/
def testAt (c : DemodCodes) (mode clk : Nat) (DemodBuffer : Nat → Nat) (idx : Nat) :
    Option Nat :=
  -- si = idx
  if PackBits idx 28 DemodBuffer = 0 then none else
  let safer := PackBits idx 4 DemodBuffer % 256           -- si += 4
  let resv := PackBits (idx + 4) 4 DemodBuffer % 256      -- si += 4
  if resv > 0 then none else
  let xtRate := PackBits (idx + 8) 3 DemodBuffer % 256    -- si += 3
  let bitRate := PackBits (idx + 11) 3 DemodBuffer        -- si += 3
  if bitRate > 7 then none else
  let extend := PackBits (idx + 14) 1 DemodBuffer % 256   -- si += 1
  let modread := PackBits (idx + 15) 5 DemodBuffer % 256  -- si += 5+2+1
  let nml01 := PackBits (idx + 23) 1 DemodBuffer % 256    -- si += 1+5
  let nml02 := PackBits (idx + 29) 2 DemodBuffer % 256    -- si += 2
  let extMode : Bool := (safer == 6 || safer == 9) && extend != 0
  if extMode = false ∧ (nml01 ≠ 0 ∨ nml02 ≠ 0 ∨ xtRate ≠ 0) then none else
  if testModulation c mode modread = false then none else
  if testBitRate (bitRate % 256) clk = false then none else
  some bitRate

/-- Values written by `test` through `offset`, `fndBitRate` and `Q5` when it returns
`TRUE`. -/
structure TestResult where
  offset : Nat
  fndBitRate : Nat
  Q5 : Bool
  deriving DecidableEq, Repr

/-- The function `test(mode, &offset, &fndBitRate, clk, &Q5)`: `none` when it returns
`FALSE` (nothing is written then). -/
def test (c : DemodCodes) (mode clk : Nat) (DemodBuffer : Nat → Nat) (DemodBufferLen : Nat) :
    Option TestResult :=
  if DemodBufferLen < 64 then none
  else
    match scanFrom (testAt c mode clk DemodBuffer) 36 28 with
    | some (idx, bitRate) => some { offset := idx, fndBitRate := bitRate, Q5 := false }
    | none =>
      match testQ5 c mode clk DemodBuffer DemodBufferLen with
      | some (offset, fndBitRate) => some { offset := offset, fndBitRate := fndBitRate, Q5 := true }
      | none => none

/-- Modelled from the spec: the type `t55xx_conf_block_t` is declared in `cmdlft55xx.h`,
which is not among the sources. Its fields are the ones the source reads and writes
(`modulation`, `inverted`, `offset`, `block0`, `bitrate`, `Q5`), the TagConfig of the
specification. It is the type of the Active Configuration `config` and of the entries of
the candidate array `tests`. -/
structure t55xx_conf_block_t where
  modulation : Nat
  inverted : Bool
  offset : Nat
  block0 : Nat
  bitrate : Nat
  Q5 : Bool
  deriving DecidableEq, Repr

/-- Outcome of one successful call of a raw demodulator (`FSKrawDemod`, `ASKDemod`,
`ASKbiphaseDemod`, `NRZrawDemod`, `PSKDemod`, all outside this file): the contents of
the globals `DemodBuffer` and `DemodBufferLen` it leaves. -/
structure DemodOut where
  DemodBuffer : Nat → Nat
  DemodBufferLen : Nat

/-- Outcomes of every call `tryDetectModulation` makes to the clock detectors and raw
demodulators, in the order of the source. A demodulator that returns 0 is `none`.
`psk1TOpsk2` is the in-place bit transform of `lfdemod`. -/
structure DetectEnv where
  GetFskClock : Nat
  fc1 : Nat
  fc2 : Nat
  fskClk : Nat
  FSKrawDemod_0_0 : Option DemodOut
  FSKrawDemod_0_1 : Option DemodOut
  GetAskClock : Nat
  ASKDemod_0_0_1 : Option DemodOut
  ASKDemod_0_1_1 : Option DemodOut
  ASKbiphaseDemod_0_0_0_2 : Option DemodOut
  ASKbiphaseDemod_0_0_1_2 : Option DemodOut
  GetNrzClock : Nat
  NRZrawDemod_0_0_1 : Option DemodOut
  NRZrawDemod_0_1_1 : Option DemodOut
  GetPskClock : Nat
  PSKDemod_0_0_6 : Option DemodOut
  PSKDemod_0_1_6 : Option DemodOut
  PSKDemod_0_0_6_psk2 : Option DemodOut
  PSKDemod_0_0_6_psk3 : Option DemodOut
  psk1TOpsk2 : (Nat → Nat) → Nat → (Nat → Nat)

/-- One trial of `tryDetectModulation`:
`if (demod(...) && test(mode, &tests[hits].offset, &bitRate, clk, &tests[hits].Q5))`
followed by the block that fills `tests[hits]` and increments `hits`. The list is the
filled part `tests[0 .. hits-1]` of the array. -/
def trial (c : DemodCodes) (tests : List t55xx_conf_block_t) (demod : Option DemodOut)
    (mode clk modulation : Nat) (inverted : Bool) : List t55xx_conf_block_t :=
  match demod with
  | none => tests
  | some d =>
    match test c mode clk d.DemodBuffer d.DemodBufferLen with
    | none => tests
    | some r =>
      tests ++ [{ modulation := modulation
                  bitrate := r.fndBitRate
                  inverted := inverted
                  offset := r.offset
                  block0 := PackBits r.offset 32 d.DemodBuffer
                  Q5 := r.Q5 }]

/-- The PSK2 and PSK3 trials run `psk1TOpsk2(DemodBuffer, DemodBufferLen)` between the
demodulator and `test`. -/
def pskTransform (env : DetectEnv) (demod : Option DemodOut) : Option DemodOut :=
  match demod with
  | none => none
  | some d => some { DemodBuffer := env.psk1TOpsk2 d.DemodBuffer d.DemodBufferLen
                     DemodBufferLen := d.DemodBufferLen }

/-- The trials of `tryDetectModulation` (source lines 447 to 568): the filled part of
`tests` when the commit is reached; its length is `hits`. -/
def candidates (c : DemodCodes) (env : DetectEnv) : List t55xx_conf_block_t :=
  if env.GetFskClock ≠ 0 then
    -- fskClocks(&fc1, &fc2, &clk, FALSE)
    let clk := env.fskClk
    let t := trial c [] env.FSKrawDemod_0_0 c.DEMOD_FSK clk
      (if env.fc1 = 8 ∧ env.fc2 = 5 then c.DEMOD_FSK1a
       else if env.fc1 = 10 ∧ env.fc2 = 8 then c.DEMOD_FSK2 else c.DEMOD_FSK) false
    trial c t env.FSKrawDemod_0_1 c.DEMOD_FSK clk
      (if env.fc1 = 8 ∧ env.fc2 = 5 then c.DEMOD_FSK1
       else if env.fc1 = 10 ∧ env.fc2 = 8 then c.DEMOD_FSK2a else c.DEMOD_FSK) true
  else
    let clk := env.GetAskClock % 256
    let t :=
      if clk > 0 then
        let t := trial c [] env.ASKDemod_0_0_1 c.DEMOD_ASK clk c.DEMOD_ASK false
        let t := trial c t env.ASKDemod_0_1_1 c.DEMOD_ASK clk c.DEMOD_ASK true
        let t := trial c t env.ASKbiphaseDemod_0_0_0_2 c.DEMOD_BI clk c.DEMOD_BI false
        trial c t env.ASKbiphaseDemod_0_0_1_2 c.DEMOD_BIa clk c.DEMOD_BIa true
      else []
    let clk := env.GetNrzClock % 256
    let t :=
      if clk > 0 then
        let t := trial c t env.NRZrawDemod_0_0_1 c.DEMOD_NRZ clk c.DEMOD_NRZ false
        trial c t env.NRZrawDemod_0_1_1 c.DEMOD_NRZ clk c.DEMOD_NRZ true
      else t
    let clk := env.GetPskClock % 256
    if clk > 0 then
      let t := trial c t env.PSKDemod_0_0_6 c.DEMOD_PSK1 clk c.DEMOD_PSK1 false
      let t := trial c t env.PSKDemod_0_1_6 c.DEMOD_PSK1 clk c.DEMOD_PSK1 true
      let t := trial c t (pskTransform env env.PSKDemod_0_0_6_psk2) c.DEMOD_PSK2 clk
        c.DEMOD_PSK2 false
      trial c t (pskTransform env env.PSKDemod_0_0_6_psk3) c.DEMOD_PSK3 clk c.DEMOD_PSK3 false
    else t

/-- A trial validates: its demodulator succeeds and `test` returns `TRUE` on the
demodulated buffer. -/
def validates (c : DemodCodes) (demod : Option DemodOut) (mode clk : Nat) : Bool :=
  match demod with
  | none => false
  | some d => (test c mode clk d.DemodBuffer d.DemodBufferLen).isSome

/-- Number of trials of `tryDetectModulation` that validate, following its trial matrix:
the two FSK trials when an FSK clock is found; otherwise the four ASK and biphase trials
when an ASK clock is found, the two NRZ trials when an NRZ clock is found and the four
PSK trials when a PSK clock is found. -/
def validCount (c : DemodCodes) (env : DetectEnv) : Nat :=
  if env.GetFskClock ≠ 0 then
    (validates c env.FSKrawDemod_0_0 c.DEMOD_FSK env.fskClk).toNat +
      (validates c env.FSKrawDemod_0_1 c.DEMOD_FSK env.fskClk).toNat
  else
    (if env.GetAskClock % 256 > 0 then
        (validates c env.ASKDemod_0_0_1 c.DEMOD_ASK (env.GetAskClock % 256)).toNat +
        (validates c env.ASKDemod_0_1_1 c.DEMOD_ASK (env.GetAskClock % 256)).toNat +
        (validates c env.ASKbiphaseDemod_0_0_0_2 c.DEMOD_BI (env.GetAskClock % 256)).toNat +
        (validates c env.ASKbiphaseDemod_0_0_1_2 c.DEMOD_BIa (env.GetAskClock % 256)).toNat
      else 0) +
    (if env.GetNrzClock % 256 > 0 then
        (validates c env.NRZrawDemod_0_0_1 c.DEMOD_NRZ (env.GetNrzClock % 256)).toNat +
        (validates c env.NRZrawDemod_0_1_1 c.DEMOD_NRZ (env.GetNrzClock % 256)).toNat
      else 0) +
    (if env.GetPskClock % 256 > 0 then
        (validates c env.PSKDemod_0_0_6 c.DEMOD_PSK1 (env.GetPskClock % 256)).toNat +
        (validates c env.PSKDemod_0_1_6 c.DEMOD_PSK1 (env.GetPskClock % 256)).toNat +
        (validates c (pskTransform env env.PSKDemod_0_0_6_psk2) c.DEMOD_PSK2
          (env.GetPskClock % 256)).toNat +
        (validates c (pskTransform env env.PSKDemod_0_0_6_psk3) c.DEMOD_PSK3
          (env.GetPskClock % 256)).toNat
      else 0)

/-- The function `tryDetectModulation()`: its return value and the global `config`
after the call (source lines 570 to 587). -/
def tryDetectModulation (c : DemodCodes) (env : DetectEnv) (config : t55xx_conf_block_t) :
    Bool × t55xx_conf_block_t :=
  match candidates c env with
  | [t0] =>
    (true, { config with
              modulation := t0.modulation
              bitrate := t0.bitrate
              inverted := t0.inverted
              offset := t0.offset
              block0 := t0.block0 })
  | _ => (false, config)

/-- The function `DecodeT55xxBlock()`: `ans` is the value the raw demodulator selected by
`config.modulation` returns; an unknown modulation returns `FALSE` without demodulating. -/
def DecodeT55xxBlock (c : DemodCodes) (config : t55xx_conf_block_t) (ans : Nat) : Bool :=
  if config.modulation ∈ [c.DEMOD_FSK, c.DEMOD_FSK1, c.DEMOD_FSK1a, c.DEMOD_FSK2,
      c.DEMOD_FSK2a, c.DEMOD_ASK, c.DEMOD_PSK1, c.DEMOD_PSK2, c.DEMOD_PSK3, c.DEMOD_NRZ,
      c.DEMOD_BI, c.DEMOD_BIa] then decide (ans ≠ 0)
  else false

/-- A read command sent to the device: the arguments of one call
`AquireData(page, block, pwdmode, password)`. -/
structure ReadCmd where
  page : Nat
  block : Nat
  pwdmode : Bool
  password : Nat
  deriving DecidableEq, Repr

/-- Outcomes of everything outside `T55xxReadBlock` during one call: whether the
acquisition of the configuration block (safety check) and of the target block return
non-zero, what the detectors and demodulators give to `tryDetectModulation`, and the
demodulator result inside `DecodeT55xxBlock`. -/
structure ReadEnv where
  configAcquire : Bool
  detect : DetectEnv
  targetAcquire : Bool
  decodeAns : Nat

/-- What one call of `T55xxReadBlock` does: its return value, the read commands sent in
order, and the global `config` afterwards. -/
structure ReadOutcome where
  ret : Nat
  sent : List ReadCmd
  config : t55xx_conf_block_t
  deriving DecidableEq, Repr

/-- The constant `T55x7_PAGE0` (source line 30). -/
def T55x7_PAGE0 : Nat := 0

/-- The constant `T55x7_CONFIGURATION_BLOCK` (source line 29). -/
def T55x7_CONFIGURATION_BLOCK : Nat := 0

/-- Source lines 282 to 288 of `T55xxReadBlock`: acquisition of the target block with the
current values of `page1` and `usepwd`, then the decoding. -/
def readTarget (c : DemodCodes) (env : ReadEnv) (config : t55xx_conf_block_t)
    (sent : List ReadCmd) (block : Nat) (page1 usepwd : Bool) (password : Nat) : ReadOutcome :=
  let cmd : ReadCmd :=
    { page := page1.toNat, block := block, pwdmode := usepwd, password := password }
  if env.targetAcquire = false then { ret := 0, sent := sent ++ [cmd], config := config }
  else if DecodeT55xxBlock c config env.decodeAns = false then
    { ret := 0, sent := sent ++ [cmd], config := config }
  else { ret := 1, sent := sent ++ [cmd], config := config }

/-- The function `T55xxReadBlock(block, page1, usepwd, override, password)`. -/
def T55xxReadBlock (c : DemodCodes) (env : ReadEnv) (config : t55xx_conf_block_t)
    (block : Nat) (page1 usepwd override : Bool) (password : Nat) : ReadOutcome :=
  if usepwd then
    if override = false then
      let cfgCmd : ReadCmd :=
        { page := T55x7_PAGE0, block := T55x7_CONFIGURATION_BLOCK, pwdmode := false,
          password := 0 }
      if env.configAcquire = false then { ret := 0, sent := [cfgCmd], config := config }
      else
        match tryDetectModulation c env.detect config with
        | (false, config1) => { ret := 0, sent := [cfgCmd], config := config1 }
        | (true, config1) =>
          -- usepwd = false; page1 = false;
          readTarget c env config1 [cfgCmd] block false false password
    else readTarget c env config [] block page1 usepwd password
  else readTarget c env config [] block page1 usepwd password

/-! ### Commands -/

/-- The table `rates` of `CmdT55xxSetConfig` (source line 166). -/
def rates : List Nat := [8, 16, 32, 40, 50, 64, 100, 128, 0]

/-- The search loop of case `b` of `CmdT55xxSetConfig`,
`for (; i < 9; i++) if (rates[i]==bitRate) { config.bitrate = i; break; }`:
the value of `i` when the loop is left, `n` being the number of iterations that remain. -/
def rateLoop (bitRate : Nat) : Nat → Nat → Nat
  | 0, i => i
  | n + 1, i => if rates[i]? = some bitRate then i else rateLoop bitRate n (i + 1)

/-- Case `b` of the switch of `CmdT55xxSetConfig` (source lines 178 to 191), entered with
`errors` false. `getdec` is the outcome of `param_getdec(Cmd, cmdp+1, &bitRate)`: `none`
when it reports an error, `some v` when it stores `v` in `bitRate`. The result is
`errors` and `config` after the case. -/
def CmdT55xxSetConfig_b (getdec : Option Nat) (config : t55xx_conf_block_t) :
    Bool × t55xx_conf_block_t :=
  match getdec with
  | none => (true, config)
  | some bitRate =>
    let i := rateLoop bitRate 9 0
    if i = 9 then (true, config) else (false, { config with bitrate := i })

/-- One call `T55xxReadBlock(block, page1, usepwd, override, password)` as made by
`CmdT55xxDump`. -/
structure ReadCall where
  block : Nat
  page1 : Bool
  usepwd : Bool
  override : Bool
  password : Nat
  deriving DecidableEq, Repr

/-- State of a dump: the global `config`, the calls of `T55xxReadBlock` made so far, their
return values and the read commands they sent. -/
structure DumpState where
  config : t55xx_conf_block_t
  calls : List ReadCall
  rets : List Nat
  sent : List ReadCmd
  deriving DecidableEq, Repr

/-- What the parameter functions return on the command line of `CmdT55xxDump`:
`param_getchar(Cmd, 0)`, `strlen(Cmd)`, `param_get32ex(Cmd, 0, 0, 16)` and
`param_getchar(Cmd, 1)`. -/
structure DumpCmd where
  cmdp : Char
  len : Nat
  password : Nat
  second : Char

/-- Body of the two loops of `CmdT55xxDump`: one call of `T55xxReadBlock` whose return
value is ignored. `envs k` gives the outcomes met by the call number `k`. -/
def dumpBlock (c : DemodCodes) (envs : Nat → ReadEnv) (page1 usepwd override : Bool)
    (password : Nat) (st : DumpState) (i : Nat) : DumpState :=
  let out := T55xxReadBlock c (envs st.calls.length) st.config i page1 usepwd override password
  { config := out.config
    calls := st.calls ++ [{ block := i, page1 := page1, usepwd := usepwd,
                            override := override, password := password }]
    rets := st.rets ++ [out.ret]
    sent := st.sent ++ out.sent }

/-- The function `CmdT55xxDump(Cmd)`: its return value and the state after it. -/
def CmdT55xxDump (c : DemodCodes) (envs : Nat → ReadEnv) (config : t55xx_conf_block_t)
    (cmd : DumpCmd) : Nat × DumpState :=
  if cmd.cmdp = 'h' ∨ cmd.cmdp = 'H' then
    -- return usage_t55xx_dump();
    (0, { config := config, calls := [], rets := [], sent := [] })
  else
    let usepwd : Bool := decide (cmd.len > 0)
    let password := if usepwd then cmd.password else 0
    let override : Bool := usepwd && decide (cmd.second = 'o')
    let st : DumpState := { config := config, calls := [], rets := [], sent := [] }
    let st := (List.range 8).foldl (dumpBlock c envs false usepwd override password) st
    let st := (List.range 4).foldl (dumpBlock c envs true usepwd override password) st
    (1, st)

/-- What `CmdT55xxReadTrace` prints: the usage text, the warning about a Q5 chip, the
error message about the allocation class, or the block of decoded traceability fields
with the two raw blocks. -/
inductive TraceLine where
  | usage
  | q5Warning
  | aclError
  | info (acl mfc cid icr year quarter lotid wafer dw bl1 bl2 : Nat)
  deriving DecidableEq, Repr

/-- The line is the block of decoded traceability fields. -/
def isInfo : TraceLine → Bool
  | TraceLine.info _ _ _ _ _ _ _ _ _ _ _ => true
  | _ => false

/-- Everything outside `CmdT55xxReadTrace`: `param_getchar(Cmd, 0)` and `strlen(Cmd)`,
whether `AquireData` returns non-zero, the demodulator result inside `DecodeT55xxBlock`,
the globals `DemodBuffer` and `DemodBufferLen` after the decoding, and `tm_year` of the
local time. -/
structure TraceEnv where
  cmdp : Char
  len : Nat
  acquire : Bool
  decodeAns : Nat
  DemodBuffer : Nat → Nat
  DemodBufferLen : Nat
  tm_year : Int

/-- What one call of `CmdT55xxReadTrace` does: return value, lines printed, read commands
sent. -/
structure TraceOutcome where
  ret : Nat
  printed : List TraceLine
  sent : List ReadCmd
  deriving DecidableEq, Repr

/-- The constant `T55x7_PAGE1` (source line 31). -/
def T55x7_PAGE1 : Nat := 1

/-- The constant `REGULAR_READ_MODE_BLOCK` (source line 32). -/
def REGULAR_READ_MODE_BLOCK : Nat := 0xFF

/-- The function `CmdT55xxReadTrace(Cmd)`. The index `si` is a `uint8_t`. -/
def CmdT55xxReadTrace (c : DemodCodes) (env : TraceEnv) (config : t55xx_conf_block_t) :
    TraceOutcome :=
  if env.len > 1 ∨ env.cmdp = 'h' ∨ env.cmdp = 'H' then
    -- return usage_t55xx_trace();
    { ret := 0, printed := [TraceLine.usage], sent := [] }
  else
    let sent : List ReadCmd :=
      if env.len = 0 then
        [{ page := T55x7_PAGE1, block := REGULAR_READ_MODE_BLOCK, pwdmode := false,
           password := 0 }]
      else []
    if env.len = 0 ∧ env.acquire = false then { ret := 0, printed := [], sent := sent }
    else if DecodeT55xxBlock c config env.decodeAns = false then
      { ret := 0, printed := [], sent := sent }
    else if env.DemodBufferLen = 0 then { ret := 0, printed := [], sent := sent }
    else
      let buf := env.DemodBuffer
      -- uint8_t repeat = 0; if (config.offset > 5) repeat = 32;
      let rep := if config.offset > 5 then 32 else 0
      let si := (config.offset + rep) % 256
      let bl1 := PackBits si 32 buf
      let bl2 := PackBits ((si + 32) % 256) 32 buf
      let acl := PackBits si 8 buf
      let si := (si + 8) % 256
      let mfc := PackBits si 8 buf
      let si := (si + 8) % 256
      let cid := PackBits si 5 buf
      let si := (si + 5) % 256
      let icr := PackBits si 3 buf
      let si := (si + 3) % 256
      let year := PackBits si 4 buf
      let si := (si + 4) % 256
      let quarter := PackBits si 2 buf
      let si := (si + 2) % 256
      let lotid := PackBits si 14 buf
      let si := (si + 14) % 256
      let wafer := PackBits si 5 buf
      let si := (si + 5) % 256
      let dw := PackBits si 15 buf
      -- if ( year > tm.tm_year-110) year += 2000; else year += 2010;
      let year :=
        if year > ((env.tm_year - 110) % 2 ^ 32).toNat then (year + 2000) % 2 ^ 32
        else (year + 2010) % 2 ^ 32
      let warn : List TraceLine := if config.Q5 then [TraceLine.q5Warning] else []
      if acl ≠ 0xE0 then { ret := 0, printed := warn ++ [TraceLine.aclError], sent := sent }
      else
        { ret := 0
          printed := warn ++ [TraceLine.info acl mfc cid icr year quarter lotid wafer dw bl1 bl2]
          sent := sent }

/-! ### The validators with the list of their field extractions -/

/-- Body of the T55x7 loop of `test` at `idx`, with the calls
`PackBits(start, len, DemodBuffer)` it makes, in order, as pairs `(start, len)`. -/
def testAtTrace (c : DemodCodes) (mode clk : Nat) (DemodBuffer : Nat → Nat) (idx : Nat) :
    Option Nat × List (Nat × Nat) :=
  if PackBits idx 28 DemodBuffer = 0 then (none, [(idx, 28)]) else
  let safer := PackBits idx 4 DemodBuffer % 256
  let resv := PackBits (idx + 4) 4 DemodBuffer % 256
  if resv > 0 then (none, [(idx, 28), (idx, 4), (idx + 4, 4)]) else
  let xtRate := PackBits (idx + 8) 3 DemodBuffer % 256
  let bitRate := PackBits (idx + 11) 3 DemodBuffer
  if bitRate > 7 then
    (none, [(idx, 28), (idx, 4), (idx + 4, 4), (idx + 8, 3), (idx + 11, 3)]) else
  let extend := PackBits (idx + 14) 1 DemodBuffer % 256
  let modread := PackBits (idx + 15) 5 DemodBuffer % 256
  let nml01 := PackBits (idx + 23) 1 DemodBuffer % 256
  let nml02 := PackBits (idx + 29) 2 DemodBuffer % 256
  let reads := [(idx, 28), (idx, 4), (idx + 4, 4), (idx + 8, 3), (idx + 11, 3), (idx + 14, 1),
    (idx + 15, 5), (idx + 23, 1), (idx + 29, 2)]
  let extMode : Bool := (safer == 6 || safer == 9) && extend != 0
  if extMode = false ∧ (nml01 ≠ 0 ∨ nml02 ≠ 0 ∨ xtRate ≠ 0) then (none, reads) else
  if testModulation c mode modread = false then (none, reads) else
  if testBitRate (bitRate % 256) clk = false then (none, reads) else
  (some bitRate, reads)

/-- Body of the loop of `testQ5` at `idx`, with the calls of `PackBits` it makes. -/
def testQ5AtTrace (c : DemodCodes) (mode clk : Nat) (DemodBuffer : Nat → Nat) (idx : Nat) :
    Option Nat × List (Nat × Nat) :=
  if PackBits idx 28 DemodBuffer = 0 then (none, [(idx, 28)]) else
  let safer := PackBits idx 4 DemodBuffer % 256
  let resv := PackBits (idx + 4) 8 DemodBuffer % 256
  if safer ≠ 6 then (none, [(idx, 28), (idx, 4), (idx + 4, 8)]) else
  if resv > 0 then (none, [(idx, 28), (idx, 4), (idx + 4, 8)]) else
  let bitRate := (PackBits (idx + 14) 5 DemodBuffer * 2 + 2) % 2 ^ 32
  if bitRate > 128 ∨ bitRate < 8 then
    (none, [(idx, 28), (idx, 4), (idx + 4, 8), (idx + 14, 5)]) else
  let modread := PackBits (idx + 24) 3 DemodBuffer % 256
  let maxBlk := PackBits (idx + 27) 3 DemodBuffer % 256
  let reads := [(idx, 28), (idx, 4), (idx + 4, 8), (idx + 14, 5), (idx + 24, 3), (idx + 27, 3)]
  if maxBlk = 0 then (none, reads) else
  if testQ5Modulation c mode modread = false then (none, reads) else
  if bitRate ≠ clk then (none, reads) else
  (some bitRate, reads)

/-- The loop `scanFrom` with the extractions of all the iterations it runs. -/
def scanFromTrace (body : Nat → Option Nat × List (Nat × Nat)) :
    Nat → Nat → Option (Nat × Nat) × List (Nat × Nat)
  | 0, _ => (none, [])
  | n + 1, idx =>
    match body idx with
    | (some r, reads) => (some (idx, r), reads)
    | (none, reads) =>
      ((scanFromTrace body n (idx + 1)).1, reads ++ (scanFromTrace body n (idx + 1)).2)

/-- The function `testQ5` with the extractions it makes. -/
def testQ5Trace (c : DemodCodes) (mode clk : Nat) (DemodBuffer : Nat → Nat)
    (DemodBufferLen : Nat) : Option (Nat × Nat) × List (Nat × Nat) :=
  if DemodBufferLen < 64 then (none, [])
  else scanFromTrace (testQ5AtTrace c mode clk DemodBuffer) 36 28

/-- The function `test` with the extractions it makes, those of the Q5 fallback
included. -/
def testTrace (c : DemodCodes) (mode clk : Nat) (DemodBuffer : Nat → Nat)
    (DemodBufferLen : Nat) : Option TestResult × List (Nat × Nat) :=
  if DemodBufferLen < 64 then (none, [])
  else
    match scanFromTrace (testAtTrace c mode clk DemodBuffer) 36 28 with
    | (some (idx, bitRate), reads) =>
      (some { offset := idx, fndBitRate := bitRate, Q5 := false }, reads)
    | (none, reads) =>
      match testQ5Trace c mode clk DemodBuffer DemodBufferLen with
      | (some (offset, fndBitRate), reads5) =>
        (some { offset := offset, fndBitRate := fndBitRate, Q5 := true }, reads ++ reads5)
      | (none, reads5) => (none, reads ++ reads5)

/-! ### The trials with the slots of the candidate array -/

/-- One trial together with the index `hits` of the slot `tests[hits]` whose fields are
handed to `test` and filled on success. The index is logged for every trial, also when
the demodulator returns 0 and the `&&` of the source never evaluates `test`: the list is
a superset of the slots the code touches. -/
def trialSlot (c : DemodCodes) (st : List t55xx_conf_block_t × List Nat)
    (demod : Option DemodOut) (mode clk modulation : Nat) (inverted : Bool) :
    List t55xx_conf_block_t × List Nat :=
  (trial c st.1 demod mode clk modulation inverted, st.2 ++ [st.1.length])

/-- The trials of `tryDetectModulation` as in `candidates`, with the list of slot indices
logged by `trialSlot`, one per trial of a branch that is run (a superset of the slots
used). -/
def candidatesSlots (c : DemodCodes) (env : DetectEnv) : List t55xx_conf_block_t × List Nat :=
  if env.GetFskClock ≠ 0 then
    let clk := env.fskClk
    let t := trialSlot c ([], []) env.FSKrawDemod_0_0 c.DEMOD_FSK clk
      (if env.fc1 = 8 ∧ env.fc2 = 5 then c.DEMOD_FSK1a
       else if env.fc1 = 10 ∧ env.fc2 = 8 then c.DEMOD_FSK2 else c.DEMOD_FSK) false
    trialSlot c t env.FSKrawDemod_0_1 c.DEMOD_FSK clk
      (if env.fc1 = 8 ∧ env.fc2 = 5 then c.DEMOD_FSK1
       else if env.fc1 = 10 ∧ env.fc2 = 8 then c.DEMOD_FSK2a else c.DEMOD_FSK) true
  else
    let clk := env.GetAskClock % 256
    let t :=
      if clk > 0 then
        let t := trialSlot c ([], []) env.ASKDemod_0_0_1 c.DEMOD_ASK clk c.DEMOD_ASK false
        let t := trialSlot c t env.ASKDemod_0_1_1 c.DEMOD_ASK clk c.DEMOD_ASK true
        let t := trialSlot c t env.ASKbiphaseDemod_0_0_0_2 c.DEMOD_BI clk c.DEMOD_BI false
        trialSlot c t env.ASKbiphaseDemod_0_0_1_2 c.DEMOD_BIa clk c.DEMOD_BIa true
      else ([], [])
    let clk := env.GetNrzClock % 256
    let t :=
      if clk > 0 then
        let t := trialSlot c t env.NRZrawDemod_0_0_1 c.DEMOD_NRZ clk c.DEMOD_NRZ false
        trialSlot c t env.NRZrawDemod_0_1_1 c.DEMOD_NRZ clk c.DEMOD_NRZ true
      else t
    let clk := env.GetPskClock % 256
    if clk > 0 then
      let t := trialSlot c t env.PSKDemod_0_0_6 c.DEMOD_PSK1 clk c.DEMOD_PSK1 false
      let t := trialSlot c t env.PSKDemod_0_1_6 c.DEMOD_PSK1 clk c.DEMOD_PSK1 true
      let t := trialSlot c t (pskTransform env env.PSKDemod_0_0_6_psk2) c.DEMOD_PSK2 clk
        c.DEMOD_PSK2 false
      trialSlot c t (pskTransform env env.PSKDemod_0_0_6_psk3) c.DEMOD_PSK3 clk
        c.DEMOD_PSK3 false
    else t

/-! ### Layout constraints, stated on the bits -/

/-- The 28 bits at `o .. o+27` are not all zero. -/
def windowNonzero (bits : Nat → Nat) (o : Nat) : Prop :=
  ∃ k, k < 28 ∧ bits (o + k) ≠ 0

/-- Extended mode of the word at offset `o`: the safer nibble at `o .. o+3` is 6 or 9 and
the extended flag at `o+14` is set. -/
def extendedMode (bits : Nat → Nat) (o : Nat) : Prop :=
  (PackBits o 4 bits = 6 ∨ PackBits o 4 bits = 9) ∧ bits (o + 14) ≠ 0

/-- The T55x7 layout constraints at offset `o`: the 4 reserved bits at `o+4 .. o+7` are
zero; outside extended mode the extended-rate bits `o+8 .. o+10`, bit `o+23` and bits
`o+29 .. o+30` are zero; the 5-bit modulation code at `o+15 .. o+19` is consistent with
`mode`; the 3-bit rate code at `o+11 .. o+13` maps to `clk`. -/
def T55x7Layout (c : DemodCodes) (mode clk : Nat) (bits : Nat → Nat) (o : Nat) : Prop :=
  (∀ k, k < 4 → bits (o + 4 + k) = 0) ∧
  (¬ extendedMode bits o →
    (∀ k, k < 3 → bits (o + 8 + k) = 0) ∧ bits (o + 23) = 0 ∧
      (∀ k, k < 2 → bits (o + 29 + k) = 0)) ∧
  testModulation c mode (PackBits (o + 15) 5 bits) = true ∧
  expected[PackBits (o + 11) 3 bits]? = some clk

/-- The twelve constants `DEMOD_*` have pairwise different values, as the enumerators of
the modulation kinds. -/
def distinctCodes (c : DemodCodes) : Prop :=
  [c.DEMOD_FSK, c.DEMOD_ASK, c.DEMOD_PSK1, c.DEMOD_PSK2, c.DEMOD_PSK3, c.DEMOD_NRZ,
    c.DEMOD_BI, c.DEMOD_BIa, c.DEMOD_FSK1, c.DEMOD_FSK1a, c.DEMOD_FSK2, c.DEMOD_FSK2a].Nodup

/-! ### Concrete inputs -/

/-- The buffer of zeros. -/
def zeroBuf : Nat → Nat := fun _ => 0

/-- The default `config` of the source (line 35); `bitrate` is zero-initialised. -/
def defaultConfig : t55xx_conf_block_t :=
  { modulation := codes.DEMOD_ASK, inverted := false, offset := 0, block0 := 0,
    bitrate := 0, Q5 := false }

/-- A Q5 configuration word at offset 32: safer nibble 6, reserved byte 0, rate code 15
(RF/32), modulation code 0 (ASK/Manchester), max-block 2. -/
def q5Buf : Nat → Nat := writeBits 0x6001E008 32 32 zeroBuf

/-- A T55x7 configuration word at offset 32: rate code 2 (RF/32), modulation code 8
(Manchester), max-block 2 and the password-mode flag (bit 27 of the word) set. -/
def pwdBuf : Nat → Nat := writeBits 0x00088050 32 32 zeroBuf

/-- The word of `pwdBuf` without the password flag, at offset 28 of a 60-bit buffer. -/
def shortBuf : Nat → Nat := writeBits 0x00088040 28 32 zeroBuf

/-- The word of `q5Buf` with the max-block field cleared, at offset 32. -/
def q5NoBlockBuf : Nat → Nat := writeBits 0x6001E000 32 32 zeroBuf

/-- A single set bit at index 60. -/
def oneBitBuf : Nat → Nat := fun i => if i = 60 then 1 else 0

/-- No clock is detected and every demodulator fails. -/
def quietEnv : DetectEnv where
  GetFskClock := 0
  fc1 := 0
  fc2 := 0
  fskClk := 0
  FSKrawDemod_0_0 := none
  FSKrawDemod_0_1 := none
  GetAskClock := 0
  ASKDemod_0_0_1 := none
  ASKDemod_0_1_1 := none
  ASKbiphaseDemod_0_0_0_2 := none
  ASKbiphaseDemod_0_0_1_2 := none
  GetNrzClock := 0
  NRZrawDemod_0_0_1 := none
  NRZrawDemod_0_1_1 := none
  GetPskClock := 0
  PSKDemod_0_0_6 := none
  PSKDemod_0_1_6 := none
  PSKDemod_0_0_6_psk2 := none
  PSKDemod_0_0_6_psk3 := none
  psk1TOpsk2 := fun b _ => b

/-- Only the non-inverted ASK trial demodulates, at RF/32, and gives `q5Buf`. -/
def q5Env : DetectEnv :=
  { quietEnv with
    GetAskClock := 32
    ASKDemod_0_0_1 := some { DemodBuffer := q5Buf, DemodBufferLen := 64 } }

/-- Only the non-inverted ASK trial demodulates, at RF/32, and gives `pwdBuf`. -/
def pwdEnv : DetectEnv :=
  { quietEnv with
    GetAskClock := 32
    ASKDemod_0_0_1 := some { DemodBuffer := pwdBuf, DemodBufferLen := 64 } }

/-- Both ASK trials demodulate at RF/32 and give `pwdBuf`. -/
def ambiguousEnv : DetectEnv :=
  { quietEnv with
    GetAskClock := 32
    ASKDemod_0_0_1 := some { DemodBuffer := pwdBuf, DemodBufferLen := 64 }
    ASKDemod_0_1_1 := some { DemodBuffer := pwdBuf, DemodBufferLen := 64 } }

/-- A read in which both acquisitions and the decoding succeed and the detection sees
`pwdEnv`. -/
def pwdReadEnv : ReadEnv :=
  { configAcquire := true, detect := pwdEnv, targetAcquire := true, decodeAns := 1 }

/-- A read whose acquisition of the configuration block times out. -/
def timeoutReadEnv : ReadEnv :=
  { configAcquire := false, detect := quietEnv, targetAcquire := true, decodeAns := 1 }

/-- A 64-bit demodulated buffer of zeros followed, in the array, by a stale set bit at
index 70. -/
def staleBuf : Nat → Nat := fun i => if i = 70 then 1 else 0

/-- The command line of a dump that asks for the help text. -/
def helpDumpCmd : DumpCmd := { cmdp := 'h', len := 1, password := 0, second := Char.ofNat 0 }

/-- The command line of a dump with password 0x11223344 and no override. -/
def pwdDumpCmd : DumpCmd :=
  { cmdp := '1', len := 8, password := 0x11223344, second := Char.ofNat 0 }

/-- Only the non-inverted ASK trial demodulates at RF/32; block 3 of page 0 (call number
3) times out at its configuration read. -/
def dumpEnvs : Nat → ReadEnv := fun k => if k = 3 then timeoutReadEnv else pwdReadEnv

/-- The default configuration marked as a Q5 chip. -/
def q5Config : t55xx_conf_block_t := { defaultConfig with Q5 := true }

/-- A trace read from the graph buffer (`Cmd` is one character) whose decoding gives 64
zero bits, in the year 2016. -/
def zeroTraceEnv : TraceEnv :=
  { cmdp := '1', len := 1, acquire := true, decodeAns := 1, DemodBuffer := zeroBuf,
    DemodBufferLen := 64, tm_year := 116 }

/-- A trace whose decoding gives a first block 0xE0150A4C at offset 0. -/
def goodTraceEnv : TraceEnv :=
  { zeroTraceEnv with DemodBuffer := writeBits 0xE0150A4C 0 32 zeroBuf }

/-! ## Theorems -/

theorem packLoop_eq_sum (bits : Nat → Nat) :
    ∀ (j i tmp : Nat), (∀ k, k < j → bits (i + k) ≤ 1) → 2 ^ j ∣ tmp → tmp + 2 ^ j ≤ 2 ^ 32 →
      packLoop bits j i tmp = tmp + ∑ k ∈ Finset.range j, bits (i + k) * 2 ^ (j - 1 - k) := by
  intro j
  induction j with
  | zero => intro i tmp _ _ _; simp [packLoop]
  | succ j ih =>
    intro i tmp hb hd hle
    obtain ⟨t, rfl⟩ := hd
    have hb0 : bits i ≤ 1 := by simpa using hb 0 (Nat.succ_pos j)
    have hpos : 0 < 2 ^ j := Nat.pos_pow_of_pos j (by norm_num)
    have hlt : bits i * 2 ^ j < 2 ^ (j + 1) := by
      rw [pow_succ]; nlinarith
    have hor : 2 ^ (j + 1) * t ||| bits i <<< j = 2 ^ (j + 1) * t + bits i * 2 ^ j := by
      rw [Nat.shiftLeft_eq, ← Nat.mul_add_lt_is_or hlt]
    have hsmall : 2 ^ (j + 1) * t + bits i * 2 ^ j < 2 ^ 32 := by
      rw [pow_succ] at hle ⊢; nlinarith
    have hstep : (2 ^ (j + 1) * t ||| bits i <<< j) % 2 ^ 32
        = 2 ^ (j + 1) * t + bits i * 2 ^ j := by
      rw [hor, Nat.mod_eq_of_lt hsmall]
    rw [packLoop, hstep, ih (i + 1) _ (fun k hk => by
        have := hb (k + 1) (by omega); rwa [show i + 1 + k = i + (k + 1) by omega])
      ⟨2 * t + bits i, by rw [pow_succ]; ring⟩ (by rw [pow_succ] at hle ⊢; nlinarith)]
    rw [Finset.sum_range_succ']
    have hsum : ∑ k ∈ Finset.range j, bits (i + 1 + k) * 2 ^ (j - 1 - k)
        = ∑ k ∈ Finset.range j, bits (i + (k + 1)) * 2 ^ (j + 1 - 1 - (k + 1)) :=
      Finset.sum_congr rfl (fun k _ => by
        rw [show i + 1 + k = i + (k + 1) by omega, show j + 1 - 1 - (k + 1) = j - 1 - k by omega])
    rw [hsum]
    simp only [Nat.add_zero, Nat.add_sub_cancel, Nat.sub_zero]
    omega

/-! ### The bit-field accessor -/

theorem PackBits_eq_sum (bits : Nat → Nat) (start len : Nat) (hlen : len ≤ 32)
    (hb : ∀ k, k < len → bits (start + k) ≤ 1) :
    PackBits start len bits = ∑ k ∈ Finset.range len, bits (start + k) * 2 ^ (len - 1 - k) := by
  unfold PackBits
  rw [if_neg (by omega), packLoop_eq_sum bits len start 0 hb (dvd_zero _)
    (by simpa using Nat.pow_le_pow_right (show 0 < 2 by norm_num) hlen)]
  simp

theorem sum_bits_lt (f : Nat → Nat) :
    ∀ n, (∀ k, k < n → f k ≤ 1) → ∑ k ∈ Finset.range n, f k * 2 ^ (n - 1 - k) < 2 ^ n := by
  intro n
  induction n generalizing f with
  | zero => intro _; simp
  | succ n ih =>
    intro hf
    rw [Finset.sum_range_succ']
    have h0 : f 0 ≤ 1 := hf 0 (Nat.succ_pos n)
    have hrest := ih (fun k => f (k + 1)) (fun k hk => hf (k + 1) (by omega))
    have hsum : ∑ k ∈ Finset.range n, f (k + 1) * 2 ^ (n + 1 - 1 - (k + 1))
        = ∑ k ∈ Finset.range n, f (k + 1) * 2 ^ (n - 1 - k) :=
      Finset.sum_congr rfl (fun k _ => by
        rw [show n + 1 - 1 - (k + 1) = n - 1 - k by omega])
    rw [hsum]
    simp only [Nat.add_sub_cancel, Nat.sub_zero]
    have hpos : 0 < 2 ^ n := Nat.pos_pow_of_pos n (by norm_num)
    rw [pow_succ]
    nlinarith

theorem PackBits_lt_two_pow (bits : Nat → Nat) (start len : Nat) (hlen : len ≤ 32)
    (hb : ∀ k, k < len → bits (start + k) ≤ 1) : PackBits start len bits < 2 ^ len := by
  rw [PackBits_eq_sum bits start len hlen hb]
  exact sum_bits_lt (fun k => bits (start + k)) len hb

theorem sum_digits_low (v : Nat) :
    ∀ n, ∑ e ∈ Finset.range n, ((v >>> e) % 2) * 2 ^ e = v % 2 ^ n := by
  intro n
  induction n with
  | zero => simp [Nat.mod_one]
  | succ n ih =>
    rw [Finset.sum_range_succ, ih, Nat.mod_pow_succ, Nat.shiftRight_eq_div_pow]
    ring

theorem sum_digits (v n : Nat) (hv : v < 2 ^ n) :
    ∑ k ∈ Finset.range n, ((v >>> (n - 1 - k)) % 2) * 2 ^ (n - 1 - k) = v := by
  rw [Finset.sum_range_reflect (fun e => ((v >>> e) % 2) * 2 ^ e) n, sum_digits_low,
    Nat.mod_eq_of_lt hv]

theorem writeBits_window (v start len : Nat) (bits : Nat → Nat) (k : Nat) (hk : k < len) :
    writeBits v start len bits (start + k) = (v >>> (len - 1 - k)) % 2 := by
  unfold writeBits
  rw [if_pos ⟨by omega, by omega⟩, Nat.add_sub_cancel_left]

theorem PackBits_writeBits (bits : Nat → Nat) (v start len : Nat) (hlen : len ≤ 32)
    (hv : v < 2 ^ len) : PackBits start len (writeBits v start len bits) = v := by
  rw [PackBits_eq_sum _ start len hlen (fun k hk => by
    rw [writeBits_window v start len bits k hk]; omega)]
  rw [Finset.sum_congr rfl (fun k hk => by
    rw [writeBits_window v start len bits k (Finset.mem_range.mp hk)])]
  exact sum_digits v len hv

/-- C1. `PackBits` equals its reference definition: on a window of bits (entries 0 or 1)
and for `len <= 32` it is the sum of `bits[start+k] * 2^(len-1-k)` over `k < len`, most
significant bit first (so 0 for `len = 0`); for `len > 32` it is 0 whatever the buffer
holds. -/
theorem PackBits_reference (bits : Nat → Nat) (start len : Nat)
    (hbits : len ≤ 32 → ∀ k, k < len → bits (start + k) ≤ 1) :
    PackBits start len bits =
      if len ≤ 32 then ∑ k ∈ Finset.range len, bits (start + k) * 2 ^ (len - 1 - k) else 0 := by
  by_cases hlen : len ≤ 32
  · rw [if_pos hlen]; exact PackBits_eq_sum bits start len hlen (hbits hlen)
  · rw [if_neg hlen]; unfold PackBits; rw [if_pos (by omega)]

theorem PackBits_reference_witness :
    PackBits 3 5 (fun i => i % 2) =
        (if 5 ≤ 32 then ∑ k ∈ Finset.range 5, ((3 + k) % 2) * 2 ^ (5 - 1 - k) else 0) ∧
      PackBits 0 33 (fun _ => 1) = (if 33 ≤ 32 then ∑ k ∈ Finset.range 33, 1 * 2 ^ (33 - 1 - k) else 0) :=
  ⟨PackBits_reference (fun i => i % 2) 3 5 (fun _ k _ => Nat.le_of_lt_succ (Nat.mod_lt _ (by decide))),
   PackBits_reference (fun _ => 1) 0 33 (fun h => absurd h (by decide))⟩

/-- C2. Round trip of `PackBits`: when the window `start .. start+len-1` holds bits and
`0 < len <= 32`, writing the binary digits of `v = PackBits(start, len, bits)`, most
significant first, back into the window and extracting again returns `v`. -/
theorem PackBits_round_trip (bits : Nat → Nat) (start len : Nat) (_hpos : 0 < len)
    (hlen : len ≤ 32) (hbits : ∀ k, k < len → bits (start + k) ≤ 1) :
    PackBits start len (writeBits (PackBits start len bits) start len bits)
      = PackBits start len bits :=
  PackBits_writeBits bits _ start len hlen (PackBits_lt_two_pow bits start len hlen hbits)

theorem PackBits_round_trip_witness :
    PackBits 32 32 (writeBits (PackBits 32 32 pwdBuf) 32 32 pwdBuf) = PackBits 32 32 pwdBuf :=
  PackBits_round_trip pwdBuf 32 32 (by decide) (by decide) (by decide)

/-! ### The scan loop -/

theorem scanFrom_some (body : Nat → Option Nat) :
    ∀ (n s i r : Nat), scanFrom body n s = some (i, r) →
      s ≤ i ∧ i < s + n ∧ body i = some r ∧ ∀ j, s ≤ j → j < i → body j = none := by
  intro n
  induction n with
  | zero => intro s i r h; simp [scanFrom] at h
  | succ n ih =>
    intro s i r h
    rw [scanFrom] at h
    cases hb : body s with
    | some v =>
      rw [hb] at h
      simp only [Option.some.injEq, Prod.mk.injEq] at h
      obtain ⟨rfl, rfl⟩ := h
      exact ⟨le_refl _, by omega, hb, fun j h1 h2 => absurd h2 (by omega)⟩
    | none =>
      rw [hb] at h
      obtain ⟨h1, h2, h3, h4⟩ := ih (s + 1) i r h
      refine ⟨by omega, by omega, h3, fun j hj1 hj2 => ?_⟩
      by_cases hjs : j = s
      · rw [hjs]; exact hb
      · exact h4 j (by omega) hj2

theorem scanFrom_none (body : Nat → Option Nat) :
    ∀ (n s : Nat), scanFrom body n s = none → ∀ j, s ≤ j → j < s + n → body j = none := by
  intro n
  induction n with
  | zero => intro s _ j h1 h2; omega
  | succ n ih =>
    intro s h j h1 h2
    rw [scanFrom] at h
    cases hb : body s with
    | some v => rw [hb] at h; simp at h
    | none =>
      rw [hb] at h
      by_cases hjs : j = s
      · rw [hjs]; exact hb
      · exact ih (s + 1) h j (by omega) (by omega)

theorem scanFrom_isSome (body : Nat → Option Nat) (n s j : Nat) (h1 : s ≤ j) (h2 : j < s + n)
    (hj : (body j).isSome = true) : (scanFrom body n s).isSome = true := by
  cases h : scanFrom body n s with
  | some v => rfl
  | none =>
    have := scanFrom_none body n s h j h1 h2
    rw [this] at hj
    simp at hj

/-! ### The results of `test` -/

theorem test_T55x7 (c : DemodCodes) (mode clk : Nat) (buf : Nat → Nat) (len : Nat)
    (r : TestResult) (h : test c mode clk buf len = some r) (hQ : r.Q5 = false) :
    64 ≤ len ∧ scanFrom (testAt c mode clk buf) 36 28 = some (r.offset, r.fndBitRate) := by
  unfold test at h
  split at h
  · simp at h
  · rename_i hl
    refine ⟨by omega, ?_⟩
    split at h
    · rename_i idx bitRate hs
      simp only [Option.some.injEq] at h
      subst h
      exact hs
    · split at h
      · simp only [Option.some.injEq] at h
        subst h
        simp at hQ
      · simp at h

theorem test_Q5 (c : DemodCodes) (mode clk : Nat) (buf : Nat → Nat) (len : Nat)
    (r : TestResult) (h : test c mode clk buf len = some r) (hQ : r.Q5 = true) :
    scanFrom (testAt c mode clk buf) 36 28 = none ∧
      testQ5 c mode clk buf len = some (r.offset, r.fndBitRate) := by
  unfold test at h
  split at h
  · simp at h
  · split at h
    · simp only [Option.some.injEq] at h
      subst h
      simp at hQ
    · rename_i hs
      refine ⟨hs, ?_⟩
      split at h
      · rename_i o b hq
        simp only [Option.some.injEq] at h
        subst h
        exact hq
      · simp at h

theorem testAt_rate (c : DemodCodes) (mode clk : Nat) (buf : Nat → Nat) (idx b : Nat)
    (h : testAt c mode clk buf idx = some b) : b ≤ 7 ∧ expected[b]? = some clk := by
  unfold testAt at h
  simp only at h
  split_ifs at h with h1 h2 h3 h4 h5 h6
  simp only [Option.some.injEq] at h
  subst h
  have hb : PackBits (idx + 11) 3 buf ≤ 7 := by omega
  refine ⟨hb, ?_⟩
  have hm : PackBits (idx + 11) 3 buf % 256 = PackBits (idx + 11) 3 buf :=
    Nat.mod_eq_of_lt (by omega)
  rw [hm] at h6
  unfold testBitRate at h6
  split at h6
  · rename_i v hv
    rw [hv]
    simp at h6
    rw [h6]
  · exact absurd rfl h6

theorem testQ5At_rate (c : DemodCodes) (mode clk : Nat) (buf : Nat → Nat) (idx b : Nat)
    (h : testQ5At c mode clk buf idx = some b) : b = clk ∧ 8 ≤ b ∧ b ≤ 128 := by
  unfold testQ5At at h
  simp only at h
  split_ifs at h with h1 h2 h3 h4 h5 h6 h7
  simp only [Option.some.injEq] at h
  subst h
  refine ⟨by simpa using h7, by omega, by omega⟩

theorem test_T55x7_rate_cross_check (c : DemodCodes) (mode clk : Nat) (buf : Nat → Nat)
    (len : Nat) (r : TestResult) (h : test c mode clk buf len = some r) (hQ : r.Q5 = false) :
    r.fndBitRate ≤ 7 ∧ expected[r.fndBitRate]? = some clk := by
  obtain ⟨_, hs⟩ := test_T55x7 c mode clk buf len r h hQ
  exact testAt_rate c mode clk buf _ _ (scanFrom_some _ _ _ _ _ hs).2.2.1

theorem test_Q5_rate_is_clock (c : DemodCodes) (mode clk : Nat) (buf : Nat → Nat)
    (len : Nat) (r : TestResult) (h : test c mode clk buf len = some r) (hQ : r.Q5 = true) :
    r.fndBitRate = clk ∧ 8 ≤ r.fndBitRate := by
  obtain ⟨_, hq⟩ := test_Q5 c mode clk buf len r h hQ
  unfold testQ5 at hq
  split at hq
  · simp at hq
  · have := testQ5At_rate c mode clk buf _ _ (scanFrom_some _ _ _ _ _ hq).2.2.1
    exact ⟨this.1, this.2.1⟩

/-- C3. On the Q5 fallback `test` stores the physical rate, not a BitRateCode: for the
Q5 configuration word `q5Buf` under the ASK hypothesis with measured clock 32 it returns
`TRUE` with `fndBitRate = 32`, which is no index of the 8-entry rate table. -/
theorem test_Q5_fallback_rate_not_a_code :
    test codes codes.DEMOD_ASK 32 q5Buf 64 = some { offset := 32, fndBitRate := 32, Q5 := true } ∧
      7 < 32 ∧ expected[32]? = none := by
  decide

/-! ### Fields of a bit buffer -/

theorem PackBits_eq_zero_iff (bits : Nat → Nat) (start len : Nat) (hlen : len ≤ 32)
    (hb : ∀ k, k < len → bits (start + k) ≤ 1) :
    PackBits start len bits = 0 ↔ ∀ k, k < len → bits (start + k) = 0 := by
  rw [PackBits_eq_sum bits start len hlen hb, Finset.sum_eq_zero_iff]
  constructor
  · intro h k hk
    have := h k (Finset.mem_range.mpr hk)
    rcases Nat.mul_eq_zero.mp this with h0 | h0
    · exact h0
    · exact absurd h0 (by positivity)
  · intro h k hk
    rw [h k (Finset.mem_range.mp hk), Nat.zero_mul]

theorem PackBits_zero_of_zero (bits : Nat → Nat) (start len : Nat)
    (h : ∀ k, k < len → bits (start + k) = 0) : PackBits start len bits = 0 := by
  by_cases hlen : len ≤ 32
  · exact (PackBits_eq_zero_iff bits start len hlen (fun k hk => by rw [h k hk]; omega)).mpr h
  · unfold PackBits; rw [if_pos (by omega)]

theorem PackBits_one (bits : Nat → Nat) (start : Nat) (hb : bits start ≤ 1) :
    PackBits start 1 bits = bits start := by
  rw [PackBits_eq_sum bits start 1 (by omega) (fun k hk => by
    have : k = 0 := by omega
    subst this; simpa using hb)]
  simp

theorem PackBits_mod_256 (bits : Nat → Nat) (hbits : ∀ i, bits i ≤ 1) (start len : Nat)
    (hlen : len ≤ 8) : PackBits start len bits % 256 = PackBits start len bits := by
  have h1 := PackBits_lt_two_pow bits start len (by omega) (fun k _ => hbits _)
  have h2 : 2 ^ len ≤ 2 ^ 8 := Nat.pow_le_pow_right (by norm_num) hlen
  exact Nat.mod_eq_of_lt (by omega)

theorem testAt_some_iff_fields (c : DemodCodes) (mode clk : Nat) (buf : Nat → Nat) (o b : Nat) :
    testAt c mode clk buf o = some b ↔
      PackBits o 28 buf ≠ 0 ∧ PackBits (o + 4) 4 buf % 256 = 0 ∧ PackBits (o + 11) 3 buf ≤ 7 ∧
      (((PackBits o 4 buf % 256 == 6 || PackBits o 4 buf % 256 == 9) &&
          PackBits (o + 14) 1 buf % 256 != 0) = false →
        PackBits (o + 23) 1 buf % 256 = 0 ∧ PackBits (o + 29) 2 buf % 256 = 0 ∧
          PackBits (o + 8) 3 buf % 256 = 0) ∧
      testModulation c mode (PackBits (o + 15) 5 buf % 256) = true ∧
      testBitRate (PackBits (o + 11) 3 buf % 256) clk = true ∧
      b = PackBits (o + 11) 3 buf := by
  unfold testAt
  simp only
  split_ifs with h1 h2 h3 h4 h5 h6
  · simp [h1]
  · constructor
    · intro h; simp at h
    · rintro ⟨_, h, _⟩; omega
  · constructor
    · intro h; simp at h
    · rintro ⟨_, _, h, _⟩; omega
  · constructor
    · intro h; simp at h
    · rintro ⟨_, _, _, h, _⟩
      have := h h4.1
      omega
  · constructor
    · intro h; simp at h
    · rintro ⟨_, _, _, _, h, _⟩
      rw [h5] at h; simp at h
  · constructor
    · intro h; simp at h
    · rintro ⟨_, _, _, _, _, h, _⟩
      rw [h6] at h; simp at h
  · constructor
    · intro h
      simp only [Option.some.injEq] at h
      refine ⟨h1, by omega, by omega, ?_, by simpa using h5, by simpa using h6, h.symm⟩
      intro he
      by_contra hcon
      exact h4 ⟨he, by omega⟩
    · rintro ⟨_, _, _, _, _, _, h⟩
      rw [h]

theorem testBitRate_iff (b clk : Nat) : testBitRate b clk = true ↔ expected[b]? = some clk := by
  unfold testBitRate
  split
  · rename_i v hv; rw [hv]; simp
  · rename_i hv; rw [hv]; simp

theorem extMode_iff (bits : Nat → Nat) (o : Nat) :
    ((PackBits o 4 bits == 6 || PackBits o 4 bits == 9) && bits (o + 14) != 0) = false ↔
      ¬ extendedMode bits o := by
  unfold extendedMode
  simp only [Bool.and_eq_false_iff, Bool.or_eq_false_iff, beq_eq_false_iff_ne, bne_eq_false_iff_eq,
    ne_eq]
  tauto

theorem windowNonzero_iff (bits : Nat → Nat) (hbits : ∀ i, bits i ≤ 1) (o : Nat) :
    PackBits o 28 bits ≠ 0 ↔ windowNonzero bits o := by
  unfold windowNonzero
  rw [ne_eq, PackBits_eq_zero_iff bits o 28 (by omega) (fun k _ => hbits _)]
  push_neg
  rfl

theorem testAt_some_iff_layout (c : DemodCodes) (mode clk : Nat) (buf : Nat → Nat)
    (hbits : ∀ i, buf i ≤ 1) (o b : Nat) :
    testAt c mode clk buf o = some b ↔
      windowNonzero buf o ∧ T55x7Layout c mode clk buf o ∧ b = PackBits (o + 11) 3 buf := by
  have hm := fun s n (hn : n ≤ 8) => PackBits_mod_256 buf hbits s n hn
  have hz := fun s n (hn : n ≤ 32) => PackBits_eq_zero_iff buf s n hn (fun k _ => hbits _)
  have h1 := fun s => PackBits_one buf s (hbits s)
  have hbr : PackBits (o + 11) 3 buf ≤ 7 := by
    have := PackBits_lt_two_pow buf (o + 11) 3 (by omega) (fun k _ => hbits _)
    norm_num at this
    omega
  rw [testAt_some_iff_fields, hm o 4 (by omega), hm (o + 4) 4 (by omega),
    hm (o + 14) 1 (by omega), hm (o + 23) 1 (by omega), hm (o + 29) 2 (by omega),
    hm (o + 8) 3 (by omega), hm (o + 15) 5 (by omega), hm (o + 11) 3 (by omega),
    h1 (o + 14), h1 (o + 23), hz (o + 4) 4 (by omega), hz (o + 29) 2 (by omega),
    hz (o + 8) 3 (by omega), windowNonzero_iff buf hbits o, extMode_iff, testBitRate_iff]
  unfold T55x7Layout
  constructor
  · rintro ⟨hw, hr, _, he, hmod, hrate, hb⟩
    exact ⟨hw, ⟨hr, fun hx => ⟨(he hx).2.2, (he hx).1, (he hx).2.1⟩, hmod, hrate⟩, hb⟩
  · rintro ⟨hw, ⟨hr, he, hmod, hrate⟩, hb⟩
    exact ⟨hw, hr, hbr, fun hx => ⟨(he hx).2.1, (he hx).2.2, (he hx).1⟩, hmod, hrate, hb⟩

/-- C4 (claim as stated fails). Under the NRZ hypothesis with clock 8, `test` on
`oneBitBuf` returns offset 33 on the T55x7 path although offset 28, whose 28-bit window
is all zero, satisfies every listed layout constraint. -/
theorem first_match_skips_zero_window :
    test codes codes.DEMOD_NRZ 8 oneBitBuf 64 = some { offset := 33, fndBitRate := 0, Q5 := false } ∧
      28 < 33 ∧ T55x7Layout codes codes.DEMOD_NRZ 8 oneBitBuf 28 := by
  unfold T55x7Layout extendedMode
  decide

/-- C4 (amended). First match wins in ascending offset order: for every bit buffer, mode
and clk, whenever `test` returns `TRUE` with `Q5 = FALSE` and offset `o`, then
`28 <= o <= 63`, the window `o .. o+27` is not all zero and `o` satisfies all T55x7
layout constraints, and no offset `o2` with `28 <= o2 < o` has both a window that is not
all zero and all the layout constraints satisfied. -/
theorem test_first_match (c : DemodCodes) (mode clk : Nat) (buf : Nat → Nat) (len : Nat)
    (r : TestResult) (hbits : ∀ i, buf i ≤ 1) (h : test c mode clk buf len = some r)
    (hQ : r.Q5 = false) :
    64 ≤ len ∧ 28 ≤ r.offset ∧ r.offset ≤ 63 ∧
      windowNonzero buf r.offset ∧ T55x7Layout c mode clk buf r.offset ∧
      ∀ o2, 28 ≤ o2 → o2 < r.offset →
        ¬ (windowNonzero buf o2 ∧ T55x7Layout c mode clk buf o2) := by
  obtain ⟨hlen, hs⟩ := test_T55x7 c mode clk buf len r h hQ
  obtain ⟨h1, h2, h3, h4⟩ := scanFrom_some _ _ _ _ _ hs
  have hl := (testAt_some_iff_layout c mode clk buf hbits _ _).mp h3
  refine ⟨hlen, h1, by omega, hl.1, hl.2.1, ?_⟩
  rintro o2 ho1 ho2 ⟨hw, hlay⟩
  have hn := h4 o2 ho1 ho2
  have hsome := (testAt_some_iff_layout c mode clk buf hbits o2 _).mpr ⟨hw, hlay, rfl⟩
  rw [hn] at hsome
  simp at hsome

theorem test_first_match_witness :
    64 ≤ 64 ∧ 28 ≤ 33 ∧ 33 ≤ 63 ∧
      windowNonzero oneBitBuf 33 ∧ T55x7Layout codes codes.DEMOD_NRZ 8 oneBitBuf 33 ∧
      ∀ o2, 28 ≤ o2 → o2 < 33 →
        ¬ (windowNonzero oneBitBuf o2 ∧ T55x7Layout codes codes.DEMOD_NRZ 8 oneBitBuf o2) :=
  test_first_match codes codes.DEMOD_NRZ 8 oneBitBuf 64
    { offset := 33, fndBitRate := 0, Q5 := false }
    (fun i => by unfold oneBitBuf; split <;> omega) (by decide) rfl

/-! ### The Q5 fallback -/

theorem test_of_scan_some (c : DemodCodes) (mode clk : Nat) (buf : Nat → Nat) (len : Nat)
    (hlen : 64 ≤ len) (i b : Nat) (hs : scanFrom (testAt c mode clk buf) 36 28 = some (i, b)) :
    test c mode clk buf len = some { offset := i, fndBitRate := b, Q5 := false } := by
  unfold test
  rw [if_neg (by omega), hs]

theorem test_of_scan_none (c : DemodCodes) (mode clk : Nat) (buf : Nat → Nat) (len : Nat)
    (hlen : 64 ≤ len) (hs : scanFrom (testAt c mode clk buf) 36 28 = none) :
    test c mode clk buf len =
      (testQ5 c mode clk buf len).map (fun p => { offset := p.1, fndBitRate := p.2, Q5 := true }) := by
  unfold test
  rw [if_neg (by omega), hs]
  cases testQ5 c mode clk buf len with
  | none => rfl
  | some p => rfl

/-- C5 (claim as stated fails). A 60-bit buffer holds a complete valid T55x7
configuration word at offset 28 (bits 28 to 59), yet `test` returns `FALSE`, and so does
`testQ5`: buffers shorter than 64 bits are rejected before any offset is examined. -/
theorem short_buffer_valid_word_rejected :
    test codes codes.DEMOD_ASK 32 shortBuf 60 = none ∧
      testQ5 codes codes.DEMOD_ASK 32 shortBuf 60 = none ∧
      28 + 32 ≤ 60 ∧
      testAt codes codes.DEMOD_ASK 32 shortBuf 28 = some 2 ∧
      T55x7Layout codes codes.DEMOD_ASK 32 shortBuf 28 := by
  unfold T55x7Layout extendedMode
  decide

/-- C5 (amended). The Q5 layout is only a fallback: for every buffer of at least 64 bits,
mode and clk, `test` returns `TRUE` exactly when some offset in 28..63 validates as a
T55x7 configuration word or `testQ5` returns `TRUE`; the flag `Q5` is `TRUE` exactly when
no offset in 28..63 validates as T55x7 and `testQ5` succeeds; and whenever a T55x7 offset
validates, `test` returns `TRUE` with `Q5 = FALSE` and the offset and bit rate of the
first T55x7 match. -/
theorem test_Q5_is_fallback (c : DemodCodes) (mode clk : Nat) (buf : Nat → Nat) (len : Nat)
    (hlen : 64 ≤ len) :
    ((test c mode clk buf len).isSome = true ↔
        (∃ o, 28 ≤ o ∧ o ≤ 63 ∧ (testAt c mode clk buf o).isSome = true) ∨
          (testQ5 c mode clk buf len).isSome = true) ∧
      (∀ r, test c mode clk buf len = some r →
        (r.Q5 = true ↔
          (¬ ∃ o, 28 ≤ o ∧ o ≤ 63 ∧ (testAt c mode clk buf o).isSome = true) ∧
            (testQ5 c mode clk buf len).isSome = true)) ∧
      ((∃ o, 28 ≤ o ∧ o ≤ 63 ∧ (testAt c mode clk buf o).isSome = true) →
        ∃ r, test c mode clk buf len = some r ∧ r.Q5 = false ∧
          28 ≤ r.offset ∧ r.offset ≤ 63 ∧
          testAt c mode clk buf r.offset = some r.fndBitRate ∧
          ∀ o2, 28 ≤ o2 → o2 < r.offset → testAt c mode clk buf o2 = none) := by
  cases hs : scanFrom (testAt c mode clk buf) 36 28 with
  | some p =>
    obtain ⟨i, b⟩ := p
    have ht := test_of_scan_some c mode clk buf len hlen i b hs
    obtain ⟨h1, h2, h3, h4⟩ := scanFrom_some _ _ _ _ _ hs
    have hV : ∃ o, 28 ≤ o ∧ o ≤ 63 ∧ (testAt c mode clk buf o).isSome = true :=
      ⟨i, h1, by omega, by rw [h3]; rfl⟩
    refine ⟨?_, ?_, ?_⟩
    · rw [ht]; simp only [Option.isSome_some, true_iff]; exact Or.inl hV
    · intro r hr
      rw [ht] at hr
      simp only [Option.some.injEq] at hr
      subst hr
      simp only [Bool.false_eq_true, false_iff, not_and]
      intro hn
      exact absurd hV hn
    · intro _
      exact ⟨_, ht, rfl, h1, by simp only; omega, h3, h4⟩
  | none =>
    have ht := test_of_scan_none c mode clk buf len hlen hs
    have hV : ¬ ∃ o, 28 ≤ o ∧ o ≤ 63 ∧ (testAt c mode clk buf o).isSome = true := by
      rintro ⟨o, h1, h2, h3⟩
      rw [scanFrom_none _ _ _ hs o h1 (by omega)] at h3
      simp at h3
    refine ⟨?_, ?_, ?_⟩
    · rw [ht, Option.isSome_map']
      constructor
      · intro h; exact Or.inr h
      · rintro (h | h)
        · exact absurd h hV
        · exact h
    · intro r hr
      rw [ht] at hr
      cases hq : testQ5 c mode clk buf len with
      | none => rw [hq] at hr; simp at hr
      | some p =>
        rw [hq] at hr
        simp only [Option.map_some', Option.some.injEq] at hr
        subst hr
        simp only [Option.isSome_some, and_true, true_iff]
        exact hV
    · intro h; exact absurd h hV

theorem test_Q5_is_fallback_witness :
    ((test codes codes.DEMOD_ASK 32 q5Buf 64).isSome = true ↔
        (∃ o, 28 ≤ o ∧ o ≤ 63 ∧ (testAt codes codes.DEMOD_ASK 32 q5Buf o).isSome = true) ∨
          (testQ5 codes codes.DEMOD_ASK 32 q5Buf 64).isSome = true) ∧
      (∀ r, test codes codes.DEMOD_ASK 32 q5Buf 64 = some r →
        (r.Q5 = true ↔
          (¬ ∃ o, 28 ≤ o ∧ o ≤ 63 ∧ (testAt codes codes.DEMOD_ASK 32 q5Buf o).isSome = true) ∧
            (testQ5 codes codes.DEMOD_ASK 32 q5Buf 64).isSome = true)) ∧
      ((∃ o, 28 ≤ o ∧ o ≤ 63 ∧ (testAt codes codes.DEMOD_ASK 32 q5Buf o).isSome = true) →
        ∃ r, test codes codes.DEMOD_ASK 32 q5Buf 64 = some r ∧ r.Q5 = false ∧
          28 ≤ r.offset ∧ r.offset ≤ 63 ∧
          testAt codes codes.DEMOD_ASK 32 q5Buf r.offset = some r.fndBitRate ∧
          ∀ o2, 28 ≤ o2 → o2 < r.offset → testAt codes codes.DEMOD_ASK 32 q5Buf o2 = none) :=
  test_Q5_is_fallback codes codes.DEMOD_ASK 32 q5Buf 64 (by decide)

/-! ### The max-block field of Q5 -/

theorem testQ5At_maxBlk (c : DemodCodes) (mode clk : Nat) (buf : Nat → Nat) (idx b : Nat)
    (h : testQ5At c mode clk buf idx = some b) : PackBits (idx + 27) 3 buf % 256 ≠ 0 := by
  unfold testQ5At at h
  simp only at h
  split_ifs at h with h1 h2 h3 h4 h5 h6 h7
  exact h5

theorem PackBits_ne_zero_bit (bits : Nat → Nat) (start len : Nat)
    (h : PackBits start len bits ≠ 0) : ∃ k, k < len ∧ bits (start + k) ≠ 0 := by
  by_contra hcon
  push_neg at hcon
  exact h (PackBits_zero_of_zero bits start len hcon)

/-- C6. A Q5 max-block of zero is always rejected: whenever `testQ5` returns `TRUE` with
offset `o`, then `28 <= o <= 63` and the 3-bit max-block field at bits `o+27 .. o+29` is
nonzero (as a value, and so some bit of it is set); hence a buffer in which that field
is zero at every offset in 28..63 never validates as Q5. -/
theorem testQ5_rejects_zero_maxblock (c : DemodCodes) (mode clk : Nat) (buf : Nat → Nat)
    (len : Nat) :
    (∀ o b, testQ5 c mode clk buf len = some (o, b) →
        28 ≤ o ∧ o ≤ 63 ∧ PackBits (o + 27) 3 buf ≠ 0 ∧ ∃ k, k < 3 ∧ buf (o + 27 + k) ≠ 0) ∧
      ((∀ o, 28 ≤ o → o ≤ 63 → PackBits (o + 27) 3 buf = 0) →
        testQ5 c mode clk buf len = none) := by
  have key : ∀ o b, testQ5 c mode clk buf len = some (o, b) →
      28 ≤ o ∧ o ≤ 63 ∧ PackBits (o + 27) 3 buf ≠ 0 := by
    intro o b h
    unfold testQ5 at h
    split at h
    · simp at h
    · obtain ⟨h1, h2, h3, _⟩ := scanFrom_some _ _ _ _ _ h
      have hm := testQ5At_maxBlk c mode clk buf o b h3
      refine ⟨h1, by omega, fun h0 => hm ?_⟩
      rw [h0]
  refine ⟨fun o b h => ?_, fun hz => ?_⟩
  · obtain ⟨h1, h2, h3⟩ := key o b h
    exact ⟨h1, h2, h3, PackBits_ne_zero_bit buf (o + 27) 3 h3⟩
  · cases hq : testQ5 c mode clk buf len with
    | none => rfl
    | some p =>
      obtain ⟨o, b⟩ := p
      obtain ⟨h1, h2, h3⟩ := key o b hq
      exact absurd (hz o h1 h2) h3

theorem testQ5_rejects_zero_maxblock_witness :
    testQ5 codes codes.DEMOD_ASK 32 q5NoBlockBuf 64 = none ∧
      testQ5 codes codes.DEMOD_ASK 32 q5Buf 64 = some (32, 32) ∧
      PackBits (32 + 27) 3 q5Buf = 2 :=
  ⟨(testQ5_rejects_zero_maxblock codes codes.DEMOD_ASK 32 q5NoBlockBuf 64).2
      (fun o h1 h2 => by interval_cases o <;> rfl),
    by decide, by decide⟩

/-! ### Detection -/

theorem trial_length (c : DemodCodes) (tests : List t55xx_conf_block_t)
    (demod : Option DemodOut) (mode clk modulation : Nat) (inverted : Bool) :
    (trial c tests demod mode clk modulation inverted).length
      = tests.length + (validates c demod mode clk).toNat := by
  unfold trial validates
  cases demod with
  | none => simp
  | some d =>
    cases h : test c mode clk d.DemodBuffer d.DemodBufferLen with
    | none => simp [h]
    | some r => simp [h]

theorem candidates_length (c : DemodCodes) (env : DetectEnv) :
    (candidates c env).length = validCount c env := by
  simp only [candidates, validCount]
  split_ifs <;> simp only [trial_length, List.length_nil] <;> omega

theorem tryDetectModulation_unique (c : DemodCodes) (env : DetectEnv)
    (config t0 : t55xx_conf_block_t) (h : candidates c env = [t0]) :
    tryDetectModulation c env config =
      (true, { modulation := t0.modulation, bitrate := t0.bitrate, inverted := t0.inverted,
               offset := t0.offset, block0 := t0.block0, Q5 := config.Q5 }) := by
  unfold tryDetectModulation
  rw [h]

/-- C7. Unique detection does not commit the chip variant: with `q5Env` exactly one trial
validates (ASK, not inverted) and its candidate has `Q5 = TRUE`; `tryDetectModulation`
returns `TRUE` and copies modulation, bitrate, inverted, offset and block0 into `config`,
but `config.Q5` keeps its old value `FALSE`. -/
theorem unique_detection_leaves_Q5 :
    validCount codes q5Env = 1 ∧
      candidates codes q5Env =
        [{ modulation := codes.DEMOD_ASK, inverted := false, offset := 32, block0 := 0x6001E008,
           bitrate := 32, Q5 := true }] ∧
      tryDetectModulation codes q5Env defaultConfig =
        (true, { modulation := codes.DEMOD_ASK, inverted := false, offset := 32,
                 block0 := 0x6001E008, bitrate := 32, Q5 := false }) := by
  decide

/-- C8. No automatic tie-break and no commit on failure: when zero trials or more than
one trial validate, `tryDetectModulation` returns `FALSE` and leaves every field of
`config` (modulation, bitrate, inverted, offset, block0, Q5) as it was. -/
theorem tryDetectModulation_no_commit (c : DemodCodes) (env : DetectEnv)
    (config : t55xx_conf_block_t) (h : validCount c env ≠ 1) :
    tryDetectModulation c env config = (false, config) := by
  have hl : (candidates c env).length ≠ 1 := by rw [candidates_length]; exact h
  unfold tryDetectModulation
  split
  · rename_i t0 ht
    rw [ht] at hl
    simp at hl
  · rfl

theorem tryDetectModulation_no_commit_witness :
    validCount codes ambiguousEnv = 2 ∧
      tryDetectModulation codes ambiguousEnv defaultConfig = (false, defaultConfig) ∧
      validCount codes quietEnv = 0 ∧
      tryDetectModulation codes quietEnv defaultConfig = (false, defaultConfig) :=
  ⟨by decide, tryDetectModulation_no_commit codes ambiguousEnv defaultConfig (by decide),
   by decide, tryDetectModulation_no_commit codes quietEnv defaultConfig (by decide)⟩

/-! ### Reading a block -/

theorem readTarget_sent (c : DemodCodes) (env : ReadEnv) (config : t55xx_conf_block_t)
    (sent : List ReadCmd) (block : Nat) (page1 usepwd : Bool) (password : Nat) :
    (readTarget c env config sent block page1 usepwd password).sent =
      sent ++ [{ page := page1.toNat, block := block, pwdmode := usepwd,
                 password := password }] := by
  unfold readTarget
  simp only
  split_ifs <;> rfl

theorem T55xxReadBlock_checked (c : DemodCodes) (env : ReadEnv) (config : t55xx_conf_block_t)
    (block : Nat) (page1 : Bool) (password : Nat) (hacq : env.configAcquire = true)
    (hdet : (tryDetectModulation c env.detect config).1 = true) :
    (T55xxReadBlock c env config block page1 true false password).sent =
      [{ page := 0, block := 0, pwdmode := false, password := 0 },
       { page := 0, block := block, pwdmode := false, password := password }] := by
  unfold T55xxReadBlock
  simp only [if_true, hacq, Bool.true_eq_false, if_false]
  cases ht : tryDetectModulation c env.detect config with
  | mk ok config1 =>
    rw [ht] at hdet
    simp only at hdet
    subst hdet
    simp only [readTarget_sent]
    rfl

/-- C9. Safety check before a password read: with `override` false, no read command sent
by `T55xxReadBlock` is in password mode, whatever the outcomes of acquisition, detection
and decoding (so none is sent without a successful check of the configuration block);
and when `usepwd` is true and the unpassworded acquisition of the configuration block
times out or the detection fails, it returns 0 having sent only that one unpassworded
read of the configuration block. -/
theorem T55xxReadBlock_safety (c : DemodCodes) (env : ReadEnv) (config : t55xx_conf_block_t)
    (block : Nat) (page1 usepwd : Bool) (password : Nat) :
    (∀ cmd, cmd ∈ (T55xxReadBlock c env config block page1 usepwd false password).sent →
        cmd.pwdmode = false) ∧
      (usepwd = true →
        env.configAcquire = false ∨ (tryDetectModulation c env.detect config).1 = false →
        (T55xxReadBlock c env config block page1 usepwd false password).ret = 0 ∧
          (T55xxReadBlock c env config block page1 usepwd false password).sent =
            [{ page := 0, block := 0, pwdmode := false, password := 0 }]) := by
  constructor
  · intro cmd hmem
    cases usepwd with
    | false =>
      unfold T55xxReadBlock at hmem
      simp only [Bool.false_eq_true, if_false, readTarget_sent, List.nil_append,
        List.mem_singleton] at hmem
      rw [hmem]
    | true =>
      unfold T55xxReadBlock at hmem
      simp only [if_true] at hmem
      split_ifs at hmem with h1
      · simp only [List.mem_singleton] at hmem
        rw [hmem]
      · revert hmem
        cases tryDetectModulation c env.detect config with
        | mk ok config1 =>
          cases ok with
          | false =>
            intro hmem
            simp only [List.mem_singleton] at hmem
            rw [hmem]
          | true =>
            intro hmem
            simp only [readTarget_sent, List.mem_append, List.mem_singleton] at hmem
            rcases hmem with hmem | hmem <;> rw [hmem]
  · intro hu hfail
    subst hu
    unfold T55xxReadBlock
    simp only [if_true]
    by_cases h1 : env.configAcquire = false
    · rw [if_pos h1]
      exact ⟨rfl, rfl⟩
    · rw [if_neg h1]
      rcases hfail with hf | hf
      · exact absurd hf h1
      · revert hf
        cases tryDetectModulation c env.detect config with
        | mk ok config1 =>
          intro hf
          simp only at hf
          subst hf
          exact ⟨rfl, rfl⟩

theorem T55xxReadBlock_safety_witness :
    (T55xxReadBlock codes timeoutReadEnv defaultConfig 1 false true false 0x11223344).ret = 0 ∧
      (T55xxReadBlock codes timeoutReadEnv defaultConfig 1 false true false 0x11223344).sent =
        [{ page := 0, block := 0, pwdmode := false, password := 0 }] :=
  (T55xxReadBlock_safety codes timeoutReadEnv defaultConfig 1 false true 0x11223344).2 rfl
    (Or.inl rfl)

/-- C10. The downgrade ignores the password-mode flag: with `pwdReadEnv` the unpassworded
acquisition succeeds and the detection commits a configuration block at offset 32 whose
password-mode flag (bit `offset+27`) is set, yet `T55xxReadBlock(1, page 0, usepwd = true,
override = false, 0x11223344)` acquires block 1 with `pwdmode = false`. -/
theorem pwd_flag_set_read_downgraded :
    tryDetectModulation codes pwdEnv defaultConfig =
        (true, { modulation := codes.DEMOD_ASK, inverted := false, offset := 32,
                 block0 := 0x00088050, bitrate := 2, Q5 := false }) ∧
      pwdBuf (32 + 27) = 1 ∧
      T55xxReadBlock codes pwdReadEnv defaultConfig 1 false true false 0x11223344 =
        { ret := 1
          sent := [{ page := 0, block := 0, pwdmode := false, password := 0 },
                   { page := 0, block := 1, pwdmode := false, password := 0x11223344 }]
          config := { modulation := codes.DEMOD_ASK, inverted := false, offset := 32,
                      block0 := 0x00088050, bitrate := 2, Q5 := false } } := by
  decide

/-- C11. Override bypasses the safety check: `T55xxReadBlock` with `usepwd = true` and
`override = true` sends exactly one read command, for the requested block and page, in
password mode with the given password; it leaves `config` untouched and its outcome does
not depend on the acquisition of the configuration block or on any clock detector or
demodulator of the detection (none is run); it returns 1 exactly when that acquisition
and `DecodeT55xxBlock` both succeed, and 0 otherwise. -/
theorem T55xxReadBlock_override (c : DemodCodes) (env : ReadEnv) (config : t55xx_conf_block_t)
    (block : Nat) (page1 : Bool) (password : Nat) :
    (T55xxReadBlock c env config block page1 true true password).sent =
        [{ page := page1.toNat, block := block, pwdmode := true, password := password }] ∧
      (T55xxReadBlock c env config block page1 true true password).config = config ∧
      ((T55xxReadBlock c env config block page1 true true password).ret = 1 ↔
        env.targetAcquire = true ∧ DecodeT55xxBlock c config env.decodeAns = true) ∧
      ((T55xxReadBlock c env config block page1 true true password).ret = 1 ∨
        (T55xxReadBlock c env config block page1 true true password).ret = 0) ∧
      (∀ env2 : ReadEnv, env2.targetAcquire = env.targetAcquire →
        env2.decodeAns = env.decodeAns →
        T55xxReadBlock c env2 config block page1 true true password =
          T55xxReadBlock c env config block page1 true true password) := by
  have hdef : ∀ e : ReadEnv, T55xxReadBlock c e config block page1 true true password =
      readTarget c e config [] block page1 true password := by
    intro e
    unfold T55xxReadBlock
    simp
  rw [hdef env]
  refine ⟨by rw [readTarget_sent]; rfl, ?_, ?_, ?_, ?_⟩
  · unfold readTarget; simp only; split_ifs <;> rfl
  · unfold readTarget
    simp only
    split_ifs with h1 h2
    · simp [h1]
    · simp [h2]
    · simp only [true_iff]
      exact ⟨by simpa using h1, by simpa using h2⟩
  · unfold readTarget; simp only; split_ifs <;> simp
  · intro env2 h1 h2
    rw [hdef env2]
    unfold readTarget
    rw [h1, h2]

theorem T55xxReadBlock_override_witness :
    (T55xxReadBlock codes pwdReadEnv defaultConfig 3 true true true 0x11223344).sent =
        [{ page := 1, block := 3, pwdmode := true, password := 0x11223344 }] ∧
      (T55xxReadBlock codes pwdReadEnv defaultConfig 3 true true true 0x11223344).config =
        defaultConfig ∧
      (T55xxReadBlock codes pwdReadEnv defaultConfig 3 true true true 0x11223344).ret = 1 :=
  ⟨(T55xxReadBlock_override codes pwdReadEnv defaultConfig 3 true 0x11223344).1,
   (T55xxReadBlock_override codes pwdReadEnv defaultConfig 3 true 0x11223344).2.1,
   (T55xxReadBlock_override codes pwdReadEnv defaultConfig 3 true 0x11223344).2.2.1.mpr
     ⟨rfl, by decide⟩⟩

/-! ### Soundness of the validators -/

theorem testModulation_sound (c : DemodCodes) (hc : distinctCodes c) (mode m : Nat)
    (h : testModulation c mode m = true) :
    (mode = c.DEMOD_FSK → c.DEMOD_FSK1 ≤ m ∧ m ≤ c.DEMOD_FSK2a) ∧
      (mode = c.DEMOD_ASK ∨ mode = c.DEMOD_PSK1 ∨ mode = c.DEMOD_PSK2 ∨ mode = c.DEMOD_PSK3 ∨
          mode = c.DEMOD_NRZ ∨ mode = c.DEMOD_BI ∨ mode = c.DEMOD_BIa → m = mode) ∧
      (mode ≠ c.DEMOD_FSK1 ∧ mode ≠ c.DEMOD_FSK1a ∧ mode ≠ c.DEMOD_FSK2 ∧
        mode ≠ c.DEMOD_FSK2a) := by
  unfold distinctCodes at hc
  simp only [List.nodup_cons, List.mem_cons, List.mem_singleton, not_or, List.not_mem_nil,
    not_false_eq_true, List.nodup_nil, and_true] at hc
  unfold testModulation at h
  split_ifs at h with h1 h2 h3 h4 h5 h6 h7 h8 <;> simp only [decide_eq_true_eq] at h
  all_goals (subst_vars; simp_all)

theorem testQ5Modulation_sound (c : DemodCodes) (hc : distinctCodes c) (mode m : Nat)
    (h : testQ5Modulation c mode m = true) :
    (mode = c.DEMOD_FSK → m = 4 ∨ m = 5) ∧ (mode = c.DEMOD_ASK → m = 0) ∧
      (mode = c.DEMOD_PSK1 → m = 1) ∧ (mode = c.DEMOD_PSK2 → m = 2) ∧
      (mode = c.DEMOD_PSK3 → m = 3) ∧ (mode = c.DEMOD_BI → m = 6) ∧
      (mode = c.DEMOD_NRZ → m = 7) ∧
      (mode ≠ c.DEMOD_BIa ∧ mode ≠ c.DEMOD_FSK1 ∧ mode ≠ c.DEMOD_FSK1a ∧
        mode ≠ c.DEMOD_FSK2 ∧ mode ≠ c.DEMOD_FSK2a) := by
  unfold distinctCodes at hc
  simp only [List.nodup_cons, List.mem_cons, List.mem_singleton, not_or, List.not_mem_nil,
    not_false_eq_true, List.nodup_nil, and_true] at hc
  unfold testQ5Modulation at h
  split_ifs at h with h1 h2 h3 h4 h5 h6 h7 <;> simp only [decide_eq_true_eq] at h
  all_goals first
    | (subst_vars; simp_all; done)
    | (subst_vars; simp_all; omega)

theorem writeBits_le_one (v start len : Nat) (bits : Nat → Nat) (hb : ∀ i, bits i ≤ 1)
    (i : Nat) : writeBits v start len bits i ≤ 1 := by
  unfold writeBits
  split
  · omega
  · exact hb i

theorem distinctCodes_codes : distinctCodes codes := by
  unfold distinctCodes
  decide

/-- C15. Soundness of the T55x7 validator on a bit buffer: whenever `test` returns
`TRUE` with `Q5 = FALSE` and offset `o`, (1) the 4 reserved bits at `o+4 .. o+7` are
zero; (2) the word is in extended mode or the extended-rate bits `o+8 .. o+10`, bit
`o+23` and bits `o+29 .. o+30` are zero; (3) the 5-bit modulation code `m` at
`o+15 .. o+19` lies between `DEMOD_FSK1` and `DEMOD_FSK2a` when mode is `DEMOD_FSK` and
equals mode when mode is ASK, PSK1, PSK2, PSK3, NRZ, Biphase or BiphaseA; and mode is
none of FSK1, FSK1a, FSK2, FSK2a (with these, or any mode outside the eight case labels,
`test` never succeeds on the T55x7 path). -/
theorem test_T55x7_sound (c : DemodCodes) (mode clk : Nat) (buf : Nat → Nat) (len : Nat)
    (r : TestResult) (hc : distinctCodes c) (hbits : ∀ i, buf i ≤ 1)
    (h : test c mode clk buf len = some r) (hQ : r.Q5 = false) :
    (∀ k, k < 4 → buf (r.offset + 4 + k) = 0) ∧
      (extendedMode buf r.offset ∨
        ((∀ k, k < 3 → buf (r.offset + 8 + k) = 0) ∧ buf (r.offset + 23) = 0 ∧
          (∀ k, k < 2 → buf (r.offset + 29 + k) = 0))) ∧
      (mode = c.DEMOD_FSK →
        c.DEMOD_FSK1 ≤ PackBits (r.offset + 15) 5 buf ∧
          PackBits (r.offset + 15) 5 buf ≤ c.DEMOD_FSK2a) ∧
      (mode = c.DEMOD_ASK ∨ mode = c.DEMOD_PSK1 ∨ mode = c.DEMOD_PSK2 ∨ mode = c.DEMOD_PSK3 ∨
          mode = c.DEMOD_NRZ ∨ mode = c.DEMOD_BI ∨ mode = c.DEMOD_BIa →
        PackBits (r.offset + 15) 5 buf = mode) ∧
      (mode = c.DEMOD_FSK ∨ mode = c.DEMOD_ASK ∨ mode = c.DEMOD_PSK1 ∨ mode = c.DEMOD_PSK2 ∨
        mode = c.DEMOD_PSK3 ∨ mode = c.DEMOD_NRZ ∨ mode = c.DEMOD_BI ∨ mode = c.DEMOD_BIa) ∧
      (mode ≠ c.DEMOD_FSK1 ∧ mode ≠ c.DEMOD_FSK1a ∧ mode ≠ c.DEMOD_FSK2 ∧
        mode ≠ c.DEMOD_FSK2a) := by
  obtain ⟨_, hs⟩ := test_T55x7 c mode clk buf len r h hQ
  obtain ⟨_, _, h3, _⟩ := scanFrom_some _ _ _ _ _ hs
  obtain ⟨_, hlay, _⟩ := (testAt_some_iff_layout c mode clk buf hbits _ _).mp h3
  obtain ⟨hres, hext, hmod, _⟩ := hlay
  obtain ⟨m1, m2, m3⟩ := testModulation_sound c hc mode _ hmod
  refine ⟨hres, ?_, m1, m2, ?_, m3⟩
  · by_cases he : extendedMode buf r.offset
    · exact Or.inl he
    · exact Or.inr (hext he)
  · unfold testModulation at hmod
    by_contra hcon
    simp only [not_or] at hcon
    obtain ⟨n1, n2, n3, n4, n5, n6, n7, n8⟩ := hcon
    simp [n1, n2, n3, n4, n5, n6, n7, n8] at hmod

theorem test_T55x7_sound_witness :
    (∀ k, k < 4 → pwdBuf (32 + 4 + k) = 0) ∧
      (extendedMode pwdBuf 32 ∨
        ((∀ k, k < 3 → pwdBuf (32 + 8 + k) = 0) ∧ pwdBuf (32 + 23) = 0 ∧
          (∀ k, k < 2 → pwdBuf (32 + 29 + k) = 0))) ∧
      (codes.DEMOD_ASK = codes.DEMOD_FSK →
        codes.DEMOD_FSK1 ≤ PackBits (32 + 15) 5 pwdBuf ∧
          PackBits (32 + 15) 5 pwdBuf ≤ codes.DEMOD_FSK2a) ∧
      (codes.DEMOD_ASK = codes.DEMOD_ASK ∨ codes.DEMOD_ASK = codes.DEMOD_PSK1 ∨
          codes.DEMOD_ASK = codes.DEMOD_PSK2 ∨ codes.DEMOD_ASK = codes.DEMOD_PSK3 ∨
          codes.DEMOD_ASK = codes.DEMOD_NRZ ∨ codes.DEMOD_ASK = codes.DEMOD_BI ∨
          codes.DEMOD_ASK = codes.DEMOD_BIa →
        PackBits (32 + 15) 5 pwdBuf = codes.DEMOD_ASK) ∧
      (codes.DEMOD_ASK = codes.DEMOD_FSK ∨ codes.DEMOD_ASK = codes.DEMOD_ASK ∨
        codes.DEMOD_ASK = codes.DEMOD_PSK1 ∨ codes.DEMOD_ASK = codes.DEMOD_PSK2 ∨
        codes.DEMOD_ASK = codes.DEMOD_PSK3 ∨ codes.DEMOD_ASK = codes.DEMOD_NRZ ∨
        codes.DEMOD_ASK = codes.DEMOD_BI ∨ codes.DEMOD_ASK = codes.DEMOD_BIa) ∧
      (codes.DEMOD_ASK ≠ codes.DEMOD_FSK1 ∧ codes.DEMOD_ASK ≠ codes.DEMOD_FSK1a ∧
        codes.DEMOD_ASK ≠ codes.DEMOD_FSK2 ∧ codes.DEMOD_ASK ≠ codes.DEMOD_FSK2a) :=
  test_T55x7_sound codes codes.DEMOD_ASK 32 pwdBuf 64
    { offset := 32, fndBitRate := 2, Q5 := false } distinctCodes_codes
    (writeBits_le_one _ _ _ _ (fun _ => Nat.zero_le 1)) (by decide) rfl

/-- C16 (claim as stated fails). The T55x7 word of `pwdBuf` at offset 32 is not in
extended mode (safer nibble 0, extended flag clear) and `test` accepts it with
`Q5 = FALSE`, although its 5-bit field at `o+24 .. o+28` holds 01010 (max-block 2 and
the password flag): `test` steps over that field (`si += 1+5`) without extracting it. -/
theorem nonextended_word_nonzero_5bit_field :
    test codes codes.DEMOD_ASK 32 pwdBuf 64 = some { offset := 32, fndBitRate := 2, Q5 := false } ∧
      PackBits 32 4 pwdBuf = 0 ∧ pwdBuf (32 + 14) = 0 ∧
      pwdBuf (32 + 23) = 0 ∧ PackBits (32 + 24) 5 pwdBuf = 10 ∧ pwdBuf (32 + 25) = 1 := by
  decide

/-- C16 (amended). Non-extended words have the 1-bit and the 2-bit field zero: for every
bit buffer, mode and clk, whenever `test` returns `TRUE` with `Q5 = FALSE` at an offset
`o` whose word is not in extended mode, the 1-bit field at `o+23` and the 2-bit field at
`o+29 .. o+30` are all zero. -/
theorem test_nonextended_fields (c : DemodCodes) (mode clk : Nat) (buf : Nat → Nat)
    (len : Nat) (r : TestResult) (hbits : ∀ i, buf i ≤ 1)
    (h : test c mode clk buf len = some r) (hQ : r.Q5 = false)
    (hne : ¬ extendedMode buf r.offset) :
    buf (r.offset + 23) = 0 ∧ ∀ k, k < 2 → buf (r.offset + 29 + k) = 0 := by
  obtain ⟨_, hs⟩ := test_T55x7 c mode clk buf len r h hQ
  obtain ⟨_, _, h3, _⟩ := scanFrom_some _ _ _ _ _ hs
  obtain ⟨_, hlay, _⟩ := (testAt_some_iff_layout c mode clk buf hbits _ _).mp h3
  exact ⟨(hlay.2.1 hne).2.1, (hlay.2.1 hne).2.2⟩

theorem test_nonextended_fields_witness :
    pwdBuf (32 + 23) = 0 ∧ ∀ k, k < 2 → pwdBuf (32 + 29 + k) = 0 :=
  test_nonextended_fields codes codes.DEMOD_ASK 32 pwdBuf 64
    { offset := 32, fndBitRate := 2, Q5 := false }
    (writeBits_le_one _ _ _ _ (fun _ => Nat.zero_le 1)) (by decide) rfl
    (by unfold extendedMode; decide)

theorem testQ5At_fields (c : DemodCodes) (mode clk : Nat) (buf : Nat → Nat) (o b : Nat)
    (h : testQ5At c mode clk buf o = some b) :
    PackBits o 4 buf % 256 = 6 ∧ PackBits (o + 4) 8 buf % 256 = 0 ∧
      b = (PackBits (o + 14) 5 buf * 2 + 2) % 2 ^ 32 ∧ 8 ≤ b ∧ b ≤ 128 ∧ b = clk ∧
      testQ5Modulation c mode (PackBits (o + 24) 3 buf % 256) = true := by
  unfold testQ5At at h
  simp only at h
  split_ifs at h with h1 h2 h3 h4 h5 h6 h7
  simp only [Option.some.injEq] at h
  subst h
  refine ⟨by simpa using h2, by omega, rfl, by omega, by omega, by simpa using h7,
    by simpa using h6⟩

/-- C17. Soundness of the Q5 validator on a bit buffer: whenever `testQ5` returns `TRUE`
with offset `o`, then `28 <= o <= 63`, the safer nibble at `o .. o+3` is 6, the 8
reserved bits at `o+4 .. o+11` are zero, the 5-bit rate code `r` at `o+14 .. o+18` has
`8 <= 2r+2 <= 128` and `2r+2 = clk` (the value returned), and the 3-bit modulation code
at `o+24 .. o+26` matches the Q5 table for mode (FSK: 4 or 5, ASK: 0, PSK1: 1, PSK2: 2,
PSK3: 3, Biphase: 6, NRZ: 7), mode being one of these seven (BiphaseA and every other
mode never validate); so a buffer with no nibble equal to 6 at any offset in 28..63 never
validates as Q5. -/
theorem testQ5_sound (c : DemodCodes) (mode clk : Nat) (buf : Nat → Nat) (len : Nat)
    (hc : distinctCodes c) (hbits : ∀ i, buf i ≤ 1) :
    (∀ o b, testQ5 c mode clk buf len = some (o, b) →
        28 ≤ o ∧ o ≤ 63 ∧ PackBits o 4 buf = 6 ∧ (∀ k, k < 8 → buf (o + 4 + k) = 0) ∧
        8 ≤ 2 * PackBits (o + 14) 5 buf + 2 ∧ 2 * PackBits (o + 14) 5 buf + 2 ≤ 128 ∧
        2 * PackBits (o + 14) 5 buf + 2 = clk ∧ b = clk ∧
        (mode = c.DEMOD_FSK →
          PackBits (o + 24) 3 buf = 4 ∨ PackBits (o + 24) 3 buf = 5) ∧
        (mode = c.DEMOD_ASK → PackBits (o + 24) 3 buf = 0) ∧
        (mode = c.DEMOD_PSK1 → PackBits (o + 24) 3 buf = 1) ∧
        (mode = c.DEMOD_PSK2 → PackBits (o + 24) 3 buf = 2) ∧
        (mode = c.DEMOD_PSK3 → PackBits (o + 24) 3 buf = 3) ∧
        (mode = c.DEMOD_BI → PackBits (o + 24) 3 buf = 6) ∧
        (mode = c.DEMOD_NRZ → PackBits (o + 24) 3 buf = 7) ∧
        (mode = c.DEMOD_FSK ∨ mode = c.DEMOD_ASK ∨ mode = c.DEMOD_PSK1 ∨
          mode = c.DEMOD_PSK2 ∨ mode = c.DEMOD_PSK3 ∨ mode = c.DEMOD_NRZ ∨
          mode = c.DEMOD_BI) ∧
        (mode ≠ c.DEMOD_BIa ∧ mode ≠ c.DEMOD_FSK1 ∧ mode ≠ c.DEMOD_FSK1a ∧
          mode ≠ c.DEMOD_FSK2 ∧ mode ≠ c.DEMOD_FSK2a)) ∧
      ((∀ o, 28 ≤ o → o ≤ 63 → PackBits o 4 buf ≠ 6) → testQ5 c mode clk buf len = none) := by
  have hm := fun s n (hn : n ≤ 8) => PackBits_mod_256 buf hbits s n hn
  have key : ∀ o b, testQ5 c mode clk buf len = some (o, b) →
      28 ≤ o ∧ o ≤ 63 ∧ testQ5At c mode clk buf o = some b := by
    intro o b h
    unfold testQ5 at h
    split at h
    · simp at h
    · obtain ⟨h1, h2, h3, _⟩ := scanFrom_some _ _ _ _ _ h
      exact ⟨h1, by omega, h3⟩
  refine ⟨fun o b h => ?_, fun hno => ?_⟩
  · obtain ⟨h1, h2, h3⟩ := key o b h
    obtain ⟨f1, f2, f3, f4, f5, f6, f7⟩ := testQ5At_fields c mode clk buf o b h3
    rw [hm o 4 (by omega)] at f1
    rw [hm (o + 4) 8 (by omega),
      PackBits_eq_zero_iff buf (o + 4) 8 (by omega) (fun k _ => hbits _)] at f2
    rw [hm (o + 24) 3 (by omega)] at f7
    have hr : PackBits (o + 14) 5 buf < 2 ^ 5 :=
      PackBits_lt_two_pow buf (o + 14) 5 (by omega) (fun k _ => hbits _)
    have hb : b = 2 * PackBits (o + 14) 5 buf + 2 := by
      rw [f3]
      norm_num at hr
      omega
    obtain ⟨q1, q2, q3, q4, q5, q6, q7, q8⟩ := testQ5Modulation_sound c hc mode _ f7
    refine ⟨h1, h2, f1, f2, by omega, by omega, by omega, f6, q1, q2, q3, q4, q5, q6, q7, ?_,
      q8⟩
    unfold testQ5Modulation at f7
    by_contra hcon
    simp only [not_or] at hcon
    obtain ⟨n1, n2, n3, n4, n5, n6, n7⟩ := hcon
    simp [n1, n2, n3, n4, n5, n6, n7] at f7
  · cases hq : testQ5 c mode clk buf len with
    | none => rfl
    | some p =>
      obtain ⟨o, b⟩ := p
      obtain ⟨h1, h2, h3⟩ := key o b hq
      have f1 := (testQ5At_fields c mode clk buf o b h3).1
      rw [hm o 4 (by omega)] at f1
      exact absurd f1 (hno o h1 h2)

theorem testQ5_sound_witness :
    testQ5 codes codes.DEMOD_ASK 32 zeroBuf 64 = none ∧
      PackBits 32 4 q5Buf = 6 ∧ (∀ k, k < 8 → q5Buf (32 + 4 + k) = 0) ∧
      2 * PackBits (32 + 14) 5 q5Buf + 2 = 32 ∧ PackBits (32 + 24) 3 q5Buf = 0 :=
  ⟨(testQ5_sound codes codes.DEMOD_ASK 32 zeroBuf 64 distinctCodes_codes
      (fun _ => Nat.zero_le 1)).2 (fun o _ _ => by
        rw [PackBits_zero_of_zero zeroBuf o 4 (fun _ _ => rfl)]; decide),
    ((testQ5_sound codes codes.DEMOD_ASK 32 q5Buf 64 distinctCodes_codes
      (writeBits_le_one _ _ _ _ (fun _ => Nat.zero_le 1))).1 32 32 (by decide)).2.2.1,
    ((testQ5_sound codes codes.DEMOD_ASK 32 q5Buf 64 distinctCodes_codes
      (writeBits_le_one _ _ _ _ (fun _ => Nat.zero_le 1))).1 32 32 (by decide)).2.2.2.1,
    ((testQ5_sound codes codes.DEMOD_ASK 32 q5Buf 64 distinctCodes_codes
      (writeBits_le_one _ _ _ _ (fun _ => Nat.zero_le 1))).1 32 32
        (by decide)).2.2.2.2.2.2.1,
    ((testQ5_sound codes codes.DEMOD_ASK 32 q5Buf 64 distinctCodes_codes
      (writeBits_le_one _ _ _ _ (fun _ => Nat.zero_le 1))).1 32 32
        (by decide)).2.2.2.2.2.2.2.2.2.1 rfl⟩

/-- C18. The safety check also changes the page: with `pwdReadEnv`,
`T55xxReadBlock(1, page1 = true, usepwd = true, override = false, 0x11223344)` passes the
check and then acquires block 1 of page 0, not of the requested page 1; the same request
without a password reads page 1. -/
theorem checked_read_resets_page :
    (T55xxReadBlock codes pwdReadEnv defaultConfig 1 true true false 0x11223344).sent =
        [{ page := 0, block := 0, pwdmode := false, password := 0 },
         { page := 0, block := 1, pwdmode := false, password := 0x11223344 }] ∧
      (T55xxReadBlock codes pwdReadEnv defaultConfig 1 true true false 0x11223344).ret = 1 ∧
      (T55xxReadBlock codes pwdReadEnv defaultConfig 1 true false false 0).sent =
        [{ page := 1, block := 1, pwdmode := false, password := 0 }] := by
  decide

/-! ### The bit-rate option of the configuration command -/

theorem CmdT55xxSetConfig_b_listed (config : t55xx_conf_block_t) (i v : Nat)
    (h : expected[i]? = some v) :
    CmdT55xxSetConfig_b (some v) config = (false, { config with bitrate := i }) := by
  have hi : i < 8 := by
    by_contra hcon
    have : expected[i]? = none := List.getElem?_eq_none (by simp [expected]; omega)
    rw [this] at h
    simp at h
  interval_cases i <;> simp [expected] at h <;> subst h <;> rfl

theorem CmdT55xxSetConfig_b_unlisted (config : t55xx_conf_block_t) (v : Nat)
    (h : v ∉ rates) : CmdT55xxSetConfig_b (some v) config = (true, config) := by
  simp only [rates, List.mem_cons, List.mem_singleton, List.not_mem_nil, or_false,
    not_or] at h
  obtain ⟨h0, h1, h2, h3, h4, h5, h6, h7, h8⟩ := h
  have hl : rateLoop v 9 0 = 9 := by
    simp [rateLoop, rates, Ne.symm h0, Ne.symm h1, Ne.symm h2, Ne.symm h3, Ne.symm h4,
      Ne.symm h5, Ne.symm h6, Ne.symm h7, Ne.symm h8]
  simp [CmdT55xxSetConfig_b, hl]

/-- C14. The `b` option accepts the value 0: for `lf t55xx config b 0` the search loop
runs over all nine entries of `rates`, finds the trailing 0 at index 8, stores
`config.bitrate = 8` and reports no error, although 8 is no index of the eight rates. -/
theorem config_b_zero_stores_index_8 :
    CmdT55xxSetConfig_b (some 0) defaultConfig = (false, { defaultConfig with bitrate := 8 }) ∧
      expected[8]? = none ∧ defaultConfig.bitrate = 0 := by
  decide

/-! ### Dump -/

theorem dumpBlock_foldl (c : DemodCodes) (envs : Nat → ReadEnv) (page1 usepwd override : Bool)
    (password : Nat) :
    ∀ (l : List Nat) (st : DumpState),
      (l.foldl (dumpBlock c envs page1 usepwd override password) st).calls =
          st.calls ++ l.map (fun i => { block := i, page1 := page1, usepwd := usepwd,
                                        override := override, password := password }) ∧
        (l.foldl (dumpBlock c envs page1 usepwd override password) st).rets.length =
          st.rets.length + l.length := by
  intro l
  induction l with
  | nil => intro st; simp
  | cons i l ih =>
    intro st
    rw [List.foldl_cons]
    obtain ⟨h1, h2⟩ := ih (dumpBlock c envs page1 usepwd override password st i)
    rw [h1, h2]
    simp [dumpBlock]
    omega

/-- C12 (claim as stated fails). When the first character of the command line is `h`,
`CmdT55xxDump` returns the usage text's value 0 and calls `T55xxReadBlock` not once. -/
theorem dump_help_reads_nothing :
    CmdT55xxDump codes dumpEnvs defaultConfig helpDumpCmd =
      (0, { config := defaultConfig, calls := [], rets := [], sent := [] }) := by
  decide

/-- C12 (amended). Dump tolerates per-block failure: for every command line that does not
start with `h` or `H` and every combination of success and failure of the individual block
reads, `CmdT55xxDump` calls `T55xxReadBlock` exactly 12 times, for blocks 0..7 of page 0
and then blocks 0..3 of page 1, each with the same `usepwd`, `override` and `password`,
and returns 1. -/
theorem CmdT55xxDump_reads_all (c : DemodCodes) (envs : Nat → ReadEnv)
    (config : t55xx_conf_block_t) (cmd : DumpCmd) (h1 : cmd.cmdp ≠ 'h') (h2 : cmd.cmdp ≠ 'H') :
    (CmdT55xxDump c envs config cmd).1 = 1 ∧
      (CmdT55xxDump c envs config cmd).2.calls =
        (List.range 8).map (fun i =>
            { block := i, page1 := false, usepwd := decide (cmd.len > 0),
              override := decide (cmd.len > 0) && decide (cmd.second = 'o'),
              password := if decide (cmd.len > 0) = true then cmd.password else 0 }) ++
          (List.range 4).map (fun i =>
            { block := i, page1 := true, usepwd := decide (cmd.len > 0),
              override := decide (cmd.len > 0) && decide (cmd.second = 'o'),
              password := if decide (cmd.len > 0) = true then cmd.password else 0 }) ∧
      (CmdT55xxDump c envs config cmd).2.calls.length = 12 ∧
      (CmdT55xxDump c envs config cmd).2.rets.length = 12 := by
  have hcalls : (CmdT55xxDump c envs config cmd).2.calls =
        (List.range 8).map (fun i =>
            { block := i, page1 := false, usepwd := decide (cmd.len > 0),
              override := decide (cmd.len > 0) && decide (cmd.second = 'o'),
              password := if decide (cmd.len > 0) = true then cmd.password else 0 }) ++
          (List.range 4).map (fun i =>
            { block := i, page1 := true, usepwd := decide (cmd.len > 0),
              override := decide (cmd.len > 0) && decide (cmd.second = 'o'),
              password := if decide (cmd.len > 0) = true then cmd.password else 0 }) := by
    unfold CmdT55xxDump
    rw [if_neg (by simp [h1, h2])]
    simp only [(dumpBlock_foldl c envs _ _ _ _ _ _).1, List.nil_append]
  refine ⟨?_, hcalls, ?_, ?_⟩
  · unfold CmdT55xxDump
    rw [if_neg (by simp [h1, h2])]
  · rw [hcalls]; simp
  · unfold CmdT55xxDump
    rw [if_neg (by simp [h1, h2])]
    simp only [(dumpBlock_foldl c envs _ _ _ _ _ _).2]
    simp

theorem CmdT55xxDump_reads_all_witness :
    (CmdT55xxDump codes dumpEnvs defaultConfig pwdDumpCmd).1 = 1 ∧
      (CmdT55xxDump codes dumpEnvs defaultConfig pwdDumpCmd).2.calls.length = 12 ∧
      (CmdT55xxDump codes dumpEnvs defaultConfig pwdDumpCmd).2.rets =
        [1, 1, 1, 0, 1, 1, 1, 1, 1, 1, 1, 1] :=
  ⟨(CmdT55xxDump_reads_all codes dumpEnvs defaultConfig pwdDumpCmd (by decide) (by decide)).1,
   (CmdT55xxDump_reads_all codes dumpEnvs defaultConfig pwdDumpCmd (by decide)
     (by decide)).2.2.1,
   by decide⟩

/-! ### Traceability -/

/-- C13 (claim as stated fails). With a configuration marked as Q5 (offset 0) and a
decoded buffer whose allocation class is 0x00, `CmdT55xxReadTrace` emits the Q5 warning
before the error message, not the error message alone. -/
theorem trace_Q5_warning_before_error :
    (CmdT55xxReadTrace codes zeroTraceEnv q5Config).printed =
        [TraceLine.q5Warning, TraceLine.aclError] ∧
      q5Config.offset = 0 ∧ PackBits 0 8 zeroTraceEnv.DemodBuffer = 0 ∧
      zeroTraceEnv.DemodBufferLen = 64 := by
  decide

/-- C13 (amended). The allocation-class check is a hard stop: for every Active
Configuration with `offset <= 63` and every successfully decoded non-empty buffer, with
anchor `a = offset + 32` if `offset > 5` and `a = offset` otherwise, `CmdT55xxReadTrace`
prints the decoded traceability fields if and only if the 8-bit allocation class at bits
`a .. a+7` equals 0xE0; for any other value, 0x00 included, it emits the error message,
preceded by the Q5 warning when `config.Q5` is set, and nothing else, and returns 0. -/
theorem CmdT55xxReadTrace_acl_check (c : DemodCodes) (env : TraceEnv)
    (config : t55xx_conf_block_t) (hlen : env.len ≤ 1) (hh : env.cmdp ≠ 'h')
    (hH : env.cmdp ≠ 'H') (hacq : env.len = 0 → env.acquire = true)
    (hdec : DecodeT55xxBlock c config env.decodeAns = true) (hne : env.DemodBufferLen ≠ 0)
    (hoff : config.offset ≤ 63) :
    ((CmdT55xxReadTrace c env config).printed.any isInfo = true ↔
        PackBits (if config.offset > 5 then config.offset + 32 else config.offset) 8
          env.DemodBuffer = 0xE0) ∧
      (PackBits (if config.offset > 5 then config.offset + 32 else config.offset) 8
          env.DemodBuffer ≠ 0xE0 →
        (CmdT55xxReadTrace c env config).printed =
            (if config.Q5 = true then [TraceLine.q5Warning] else []) ++ [TraceLine.aclError] ∧
          (CmdT55xxReadTrace c env config).ret = 0) := by
  have hsi : (config.offset + if config.offset > 5 then 32 else 0) % 256 =
      if config.offset > 5 then config.offset + 32 else config.offset := by
    split_ifs <;> omega
  unfold CmdT55xxReadTrace
  rw [if_neg (by simp only [not_or]; exact ⟨by omega, hh, hH⟩)]
  simp only
  rw [if_neg (by
    rintro ⟨h0, ha⟩
    rw [hacq h0] at ha
    simp at ha), if_neg (by rw [hdec]; simp), if_neg hne, hsi]
  by_cases hacl : PackBits (if config.offset > 5 then config.offset + 32 else config.offset) 8
      env.DemodBuffer = 0xE0
  · rw [if_neg (by simpa using hacl)]
    refine ⟨?_, fun h => absurd hacl h⟩
    simp only [hacl, iff_true]
    cases config.Q5 <;> simp [isInfo]
  · rw [if_pos hacl]
    refine ⟨?_, fun _ => ⟨rfl, rfl⟩⟩
    simp only [hacl, iff_false]
    cases config.Q5 <;> simp [isInfo]

theorem CmdT55xxReadTrace_acl_check_witness :
    (CmdT55xxReadTrace codes goodTraceEnv defaultConfig).printed.any isInfo = true ∧
      (CmdT55xxReadTrace codes zeroTraceEnv defaultConfig).printed = [TraceLine.aclError] :=
  ⟨(CmdT55xxReadTrace_acl_check codes goodTraceEnv defaultConfig (by decide) (by decide)
      (by decide) (by decide) (by decide) (by decide) (by decide)).1.mpr (by decide),
   ((CmdT55xxReadTrace_acl_check codes zeroTraceEnv defaultConfig (by decide) (by decide)
      (by decide) (by decide) (by decide) (by decide) (by decide)).2 (by decide)).1⟩

/-! ### Field extractions of the validators -/

theorem testAtTrace_fst (c : DemodCodes) (mode clk : Nat) (buf : Nat → Nat) (idx : Nat) :
    (testAtTrace c mode clk buf idx).1 = testAt c mode clk buf idx := by
  unfold testAtTrace testAt
  simp only
  split_ifs <;> rfl

theorem testQ5AtTrace_fst (c : DemodCodes) (mode clk : Nat) (buf : Nat → Nat) (idx : Nat) :
    (testQ5AtTrace c mode clk buf idx).1 = testQ5At c mode clk buf idx := by
  unfold testQ5AtTrace testQ5At
  simp only
  split_ifs <;> rfl

theorem scanFromTrace_fst (bodyT : Nat → Option Nat × List (Nat × Nat))
    (body : Nat → Option Nat) (hb : ∀ i, (bodyT i).1 = body i) :
    ∀ n s, (scanFromTrace bodyT n s).1 = scanFrom body n s := by
  intro n
  induction n with
  | zero => intro s; rfl
  | succ n ih =>
    intro s
    rw [scanFromTrace, scanFrom, ← hb s]
    cases hbs : bodyT s with
    | mk res reads =>
      cases res with
      | none => simp only; exact ih (s + 1)
      | some r => rfl

theorem testQ5Trace_fst (c : DemodCodes) (mode clk : Nat) (buf : Nat → Nat) (len : Nat) :
    (testQ5Trace c mode clk buf len).1 = testQ5 c mode clk buf len := by
  unfold testQ5Trace testQ5
  split_ifs
  · rfl
  · exact scanFromTrace_fst _ _ (testQ5AtTrace_fst c mode clk buf) 36 28

theorem testTrace_fst (c : DemodCodes) (mode clk : Nat) (buf : Nat → Nat) (len : Nat) :
    (testTrace c mode clk buf len).1 = test c mode clk buf len := by
  unfold testTrace test
  split_ifs
  · rfl
  · rw [← scanFromTrace_fst _ _ (testAtTrace_fst c mode clk buf) 36 28,
      ← testQ5Trace_fst c mode clk buf len]
    cases scanFromTrace (testAtTrace c mode clk buf) 36 28 with
    | mk res reads =>
      cases res with
      | some p => rfl
      | none =>
        cases testQ5Trace c mode clk buf len with
        | mk res5 reads5 =>
          cases res5 with
          | some p => rfl
          | none => rfl

theorem testAtTrace_reads (c : DemodCodes) (mode clk : Nat) (buf : Nat → Nat) (idx : Nat)
    (rd : Nat × Nat) (h : rd ∈ (testAtTrace c mode clk buf idx).2) :
    idx ≤ rd.1 ∧ rd.1 + rd.2 ≤ idx + 31 := by
  unfold testAtTrace at h
  simp only at h
  split_ifs at h <;>
    simp only [List.mem_cons, List.mem_singleton, List.not_mem_nil, or_false] at h <;>
    rcases h with rfl | rfl | rfl | rfl | rfl | rfl | rfl | rfl | rfl <;>
    (constructor <;> dsimp only <;> omega)

theorem testQ5AtTrace_reads (c : DemodCodes) (mode clk : Nat) (buf : Nat → Nat) (idx : Nat)
    (rd : Nat × Nat) (h : rd ∈ (testQ5AtTrace c mode clk buf idx).2) :
    idx ≤ rd.1 ∧ rd.1 + rd.2 ≤ idx + 31 := by
  unfold testQ5AtTrace at h
  simp only at h
  split_ifs at h <;>
    simp only [List.mem_cons, List.mem_singleton, List.not_mem_nil, or_false] at h <;>
    rcases h with rfl | rfl | rfl | rfl | rfl | rfl <;>
    (constructor <;> dsimp only <;> omega)

theorem scanFromTrace_reads (bodyT : Nat → Option Nat × List (Nat × Nat))
    (hb : ∀ i rd, rd ∈ (bodyT i).2 → i ≤ rd.1 ∧ rd.1 + rd.2 ≤ i + 31) :
    ∀ n s rd, rd ∈ (scanFromTrace bodyT n s).2 → s ≤ rd.1 ∧ rd.1 + rd.2 ≤ s + n + 30 := by
  intro n
  induction n with
  | zero => intro s rd h; simp [scanFromTrace] at h
  | succ n ih =>
    intro s rd h
    rw [scanFromTrace] at h
    cases hbs : bodyT s with
    | mk res reads =>
      have hbr := hb s rd
      rw [hbs] at h hbr
      cases res with
      | some r =>
        simp only at h hbr
        have := hbr h
        omega
      | none =>
        simp only [List.mem_append] at h hbr
        rcases h with h | h
        · have := hbr h
          omega
        · have := ih (s + 1) rd h
          omega

theorem testTrace_reads (c : DemodCodes) (mode clk : Nat) (buf : Nat → Nat) (len : Nat)
    (rd : Nat × Nat) (h : rd ∈ (testTrace c mode clk buf len).2) :
    28 ≤ rd.1 ∧ rd.1 + rd.2 ≤ 94 := by
  have h7 := scanFromTrace_reads _ (testAtTrace_reads c mode clk buf) 36 28 rd
  have h5 := scanFromTrace_reads _ (testQ5AtTrace_reads c mode clk buf) 36 28 rd
  unfold testTrace at h
  split_ifs at h
  · simp at h
  · unfold testQ5Trace at h
    rw [if_neg (by omega)] at h
    cases hs : scanFromTrace (testAtTrace c mode clk buf) 36 28 with
    | mk res reads =>
      rw [hs] at h h7
      cases res with
      | some p => exact h7 h
      | none =>
        cases hq : scanFromTrace (testQ5AtTrace c mode clk buf) 36 28 with
        | mk res5 reads5 =>
          rw [hq] at h h5
          cases res5 with
          | some p =>
            simp only [List.mem_append] at h
            rcases h with h | h
            · exact h7 h
            · exact h5 h
          | none =>
            simp only [List.mem_append] at h
            rcases h with h | h
            · exact h7 h
            · exact h5 h

/-- C19. The validators read beyond a 64-bit buffer: on `staleBuf` with
`DemodBufferLen = 64`, whose 64 demodulated bits are all zero, `test` under the NRZ
hypothesis with clock 8 makes the extractions `PackBits(43, 28, DemodBuffer)` and
`PackBits(72, 2, DemodBuffer)`, both with `start + len > 64`, and returns `TRUE` at
offset 43 because of the stale bit at index 70. -/
theorem test_reads_beyond_length :
    (testTrace codes codes.DEMOD_NRZ 8 staleBuf 64).1 =
        some { offset := 43, fndBitRate := 0, Q5 := false } ∧
      test codes codes.DEMOD_NRZ 8 staleBuf 64 =
        some { offset := 43, fndBitRate := 0, Q5 := false } ∧
      (43, 28) ∈ (testTrace codes codes.DEMOD_NRZ 8 staleBuf 64).2 ∧ 64 < 43 + 28 ∧
      (72, 2) ∈ (testTrace codes codes.DEMOD_NRZ 8 staleBuf 64).2 ∧ 64 < 72 + 2 ∧
      (∀ i, i < 64 → staleBuf i = 0) := by
  decide

/-! ### The candidate array -/

theorem trialSlot_inv (c : DemodCodes) (st : List t55xx_conf_block_t × List Nat)
    (demod : Option DemodOut) (mode clk modulation : Nat) (inverted : Bool)
    (h : st.1.length ≤ st.2.length ∧ ∀ i, i ∈ st.2 → i < st.2.length) :
    (trialSlot c st demod mode clk modulation inverted).1.length ≤
        (trialSlot c st demod mode clk modulation inverted).2.length ∧
      ∀ i, i ∈ (trialSlot c st demod mode clk modulation inverted).2 →
        i < (trialSlot c st demod mode clk modulation inverted).2.length := by
  obtain ⟨h1, h2⟩ := h
  unfold trialSlot
  simp only [trial_length, List.length_append, List.length_singleton, List.mem_append,
    List.mem_singleton]
  have hb : (validates c demod mode clk).toNat ≤ 1 := Bool.toNat_le _
  refine ⟨by omega, fun i hi => ?_⟩
  rcases hi with hi | hi
  · have := h2 i hi
    omega
  · omega

theorem trialSlot_fst (c : DemodCodes) (st : List t55xx_conf_block_t × List Nat)
    (demod : Option DemodOut) (mode clk modulation : Nat) (inverted : Bool) :
    (trialSlot c st demod mode clk modulation inverted).1 =
      trial c st.1 demod mode clk modulation inverted := rfl

theorem trialSlot_snd_length (c : DemodCodes) (st : List t55xx_conf_block_t × List Nat)
    (demod : Option DemodOut) (mode clk modulation : Nat) (inverted : Bool) :
    (trialSlot c st demod mode clk modulation inverted).2.length = st.2.length + 1 := by
  simp [trialSlot]

theorem candidatesSlots_fst (c : DemodCodes) (env : DetectEnv) :
    (candidatesSlots c env).1 = candidates c env := by
  simp only [candidatesSlots, candidates]
  split_ifs <;> simp only [trialSlot_fst]

theorem candidatesSlots_inv (c : DemodCodes) (env : DetectEnv) :
    (candidatesSlots c env).1.length ≤ (candidatesSlots c env).2.length ∧
      ∀ i, i ∈ (candidatesSlots c env).2 → i < (candidatesSlots c env).2.length := by
  simp only [candidatesSlots]
  split_ifs <;>
    repeat (first
      | exact ⟨Nat.le_refl _, fun i hi => absurd hi (List.not_mem_nil i)⟩
      | apply trialSlot_inv)

theorem candidatesSlots_trials (c : DemodCodes) (env : DetectEnv) :
    (candidatesSlots c env).2.length ≤ 10 ∧
      (env.GetFskClock ≠ 0 → (candidatesSlots c env).2.length = 2) := by
  simp only [candidatesSlots]
  split_ifs with h1 h2 h3 h4 <;>
    simp only [trialSlot_snd_length, List.length_nil, ne_eq, h1, not_true_eq_false,
      not_false_eq_true, false_implies, true_implies, and_true] <;> omega

/-- C20. The candidate array cannot overflow: the number of candidates
`tryDetectModulation` records is at most 2 when an FSK clock is found and at most 10
otherwise, and every index `hits` of a slot `tests[hits]` handed to `test` (before the
hit is counted) is below 15; in fact below the number of trials run, at most 10. -/
theorem candidates_fit_array (c : DemodCodes) (env : DetectEnv) :
    (env.GetFskClock ≠ 0 → (candidates c env).length ≤ 2) ∧
      (candidates c env).length ≤ 10 ∧
      (candidatesSlots c env).1 = candidates c env ∧
      (∀ i, i ∈ (candidatesSlots c env).2 → i < 10 ∧ i < 15) := by
  have hinv := candidatesSlots_inv c env
  have htr := candidatesSlots_trials c env
  rw [candidatesSlots_fst] at hinv
  refine ⟨fun h => ?_, by omega, candidatesSlots_fst c env, fun i hi => ?_⟩
  · have := htr.2 h
    omega
  · have := hinv.2 i hi
    omega

theorem candidates_fit_array_witness :
    (candidates codes ambiguousEnv).length ≤ 10 ∧
      (candidatesSlots codes ambiguousEnv).2 = [0, 1, 2, 2] :=
  ⟨(candidates_fit_array codes ambiguousEnv).2.1, by decide⟩

/-! ### All-zero windows -/

theorem testAt_window (c : DemodCodes) (mode clk : Nat) (buf : Nat → Nat) (o b : Nat)
    (h : testAt c mode clk buf o = some b) : PackBits o 28 buf ≠ 0 :=
  ((testAt_some_iff_fields c mode clk buf o b).mp h).1

theorem testQ5At_window (c : DemodCodes) (mode clk : Nat) (buf : Nat → Nat) (o b : Nat)
    (h : testQ5At c mode clk buf o = some b) : PackBits o 28 buf ≠ 0 := by
  unfold testQ5At at h
  simp only at h
  split_ifs at h with h1
  exact h1

theorem testAt_zero_window (c : DemodCodes) (mode clk : Nat) (buf : Nat → Nat) (o : Nat)
    (hz : PackBits o 28 buf = 0) : testAt c mode clk buf o = none := by
  unfold testAt
  rw [if_pos hz]

theorem testQ5At_zero_window (c : DemodCodes) (mode clk : Nat) (buf : Nat → Nat) (o : Nat)
    (hz : PackBits o 28 buf = 0) : testQ5At c mode clk buf o = none := by
  unfold testQ5At
  rw [if_pos hz]

theorem test_accepted_body (c : DemodCodes) (mode clk : Nat) (buf : Nat → Nat) (len : Nat)
    (r : TestResult) (h : test c mode clk buf len = some r) :
    testAt c mode clk buf r.offset = some r.fndBitRate ∨
      testQ5At c mode clk buf r.offset = some r.fndBitRate := by
  cases hQ : r.Q5 with
  | false =>
    obtain ⟨_, hs⟩ := test_T55x7 c mode clk buf len r h hQ
    exact Or.inl (scanFrom_some _ _ _ _ _ hs).2.2.1
  | true =>
    obtain ⟨_, hq⟩ := test_Q5 c mode clk buf len r h hQ
    unfold testQ5 at hq
    split at hq
    · simp at hq
    · exact Or.inr (scanFrom_some _ _ _ _ _ hq).2.2.1

theorem testQ5_accepted_body (c : DemodCodes) (mode clk : Nat) (buf : Nat → Nat) (len : Nat)
    (o b : Nat) (h : testQ5 c mode clk buf len = some (o, b)) :
    testQ5At c mode clk buf o = some b := by
  unfold testQ5 at h
  split at h
  · simp at h
  · exact (scanFrom_some _ _ _ _ _ h).2.2.1

/-- C21. All-zero windows are never accepted: for every buffer, mode and clk, whenever
`test` (on either path) or `testQ5` returns `TRUE` with offset `o`, the 28 bits at
`o .. o+27` are not all zero; and an offset whose 28-bit window is all zero is skipped by
both loop bodies, whatever its other fields, so it is never the offset returned. -/
theorem zero_window_never_accepted (c : DemodCodes) (mode clk : Nat) (buf : Nat → Nat)
    (len : Nat) :
    (∀ r, test c mode clk buf len = some r → windowNonzero buf r.offset) ∧
      (∀ o b, testQ5 c mode clk buf len = some (o, b) → windowNonzero buf o) ∧
      (∀ o, (∀ k, k < 28 → buf (o + k) = 0) →
        testAt c mode clk buf o = none ∧ testQ5At c mode clk buf o = none ∧
          (∀ r, test c mode clk buf len = some r → r.offset ≠ o) ∧
          (∀ o2 b, testQ5 c mode clk buf len = some (o2, b) → o2 ≠ o)) := by
  have hnz : ∀ o, PackBits o 28 buf ≠ 0 → windowNonzero buf o :=
    fun o h => PackBits_ne_zero_bit buf o 28 h
  refine ⟨fun r h => ?_, fun o b h => ?_, fun o hz => ?_⟩
  · rcases test_accepted_body c mode clk buf len r h with h7 | h5
    · exact hnz _ (testAt_window c mode clk buf _ _ h7)
    · exact hnz _ (testQ5At_window c mode clk buf _ _ h5)
  · exact hnz _ (testQ5At_window c mode clk buf _ _
      (testQ5_accepted_body c mode clk buf len o b h))
  · have hp : PackBits o 28 buf = 0 := PackBits_zero_of_zero buf o 28 hz
    have h7 := testAt_zero_window c mode clk buf o hp
    have h5 := testQ5At_zero_window c mode clk buf o hp
    refine ⟨h7, h5, fun r h heq => ?_, fun o2 b h heq => ?_⟩
    · rcases test_accepted_body c mode clk buf len r h with h | h
      · rw [heq, h7] at h
        simp at h
      · rw [heq, h5] at h
        simp at h
    · have h := testQ5_accepted_body c mode clk buf len o2 b h
      rw [heq, h5] at h
      simp at h

theorem zero_window_never_accepted_witness :
    T55x7Layout codes codes.DEMOD_NRZ 8 oneBitBuf 28 ∧
      PackBits (28 + 15) 5 oneBitBuf = 0 ∧ PackBits (28 + 11) 3 oneBitBuf = 0 ∧
      testAt codes codes.DEMOD_NRZ 8 oneBitBuf 28 = none ∧
      windowNonzero oneBitBuf 33 :=
  ⟨by unfold T55x7Layout extendedMode; decide, by decide, by decide,
   ((zero_window_never_accepted codes codes.DEMOD_NRZ 8 oneBitBuf 64).2.2 28
      (by decide)).1,
   (zero_window_never_accepted codes codes.DEMOD_NRZ 8 oneBitBuf 64).1
      { offset := 33, fndBitRate := 0, Q5 := false } (by decide)⟩

end T55xx
